import Mathlib

/-!
Verification of the gamebuild-sdk-cli repository against its specification.

The development shallowly embeds the TypeScript sources:

* `src/services/config.ts` (`ConfigService.get/set/delete`) as operations on
  a JavaScript-value tree (`JValue`) whose objects are association lists and
  whose plain objects inherit from a shared, mutable `Object.prototype`
  (the `in` test, property reads, the `__proto__` accessor and own-only
  `delete` follow the prototype-chain semantics);
* the `config set` coercion of `src/commands/config.ts` (`ConfigCommand.set`),
  including a model of JavaScript `Number(...)` string conversion;
* the sensitive-value masking and recursive printing of `ConfigCommand`;
* the command handlers as effect traces (console prints, HTTP calls,
  prompts, config writes, process exits), with the authentication gate and
  project-marker gate embedded exactly as they appear at the top of each
  handler body;
* the service-layer error wrapping (`Failed to X: body-message || transport`)
  of every domain service, and the log-follow polling loops of
  `BuildService`/`DeployService`.

JavaScript strings are modelled as Lean `String`s operated on through their
character lists; machine floating-point is idealised by exact rationals (`Rat`)
for the mantissa/exponent arithmetic of `Number(...)`, which is faithful for
the classification (NaN or not) and for all integer-valued literals.
-/

/-! ## JavaScript string primitives -/

/-- The whitespace code points recognised by JavaScript string trimming as
used by `Number(string)`: tab, LF, VT, FF, CR, space, NBSP, the Unicode
category-Zs spaces (U+1680, U+2000 through U+200A, U+202F, U+205F, U+3000),
the line and paragraph separators, and the BOM. -/
def jsWhitespaceChars : List Char :=
  ['\t', '\n', '\x0b', '\x0c', '\r', ' ', '\u00A0', '\u1680',
   '\u2000', '\u2001', '\u2002', '\u2003', '\u2004', '\u2005', '\u2006',
   '\u2007', '\u2008', '\u2009', '\u200A', '\u2028', '\u2029', '\u202F',
   '\u205F', '\u3000', '\uFEFF']

/-- Membership in the JavaScript whitespace set. -/
def isJsWhitespace (c : Char) : Bool :=
  decide (c ∈ jsWhitespaceChars)

/-- Helper for `jsSplit`: accumulates the current field (reversed) while
scanning the character list. -/
def splitAux (sep : Char) : List Char → List Char → List (List Char)
  | [], acc => [acc.reverse]
  | c :: rest, acc =>
    if c = sep then acc.reverse :: splitAux sep rest []
    else splitAux sep rest (c :: acc)

/-- JavaScript `String.prototype.split` with a one-character separator, as in
`key.split('.')` of `ConfigService`.  `jsSplit "" '.' = [""]` and empty
segments are kept, matching JavaScript. -/
def jsSplit (s : String) (sep : Char) : List String :=
  (splitAux sep s.data []).map String.mk

/-- JavaScript `String.prototype.toLowerCase` (ASCII case mapping suffices
for every string the claims touch). -/
def jsToLower (s : String) : String := String.mk (s.data.map Char.toLower)

/-- JavaScript `value.startsWith(c)` for a single-character prefix. -/
def jsStartsWithChar (s : String) (c : Char) : Bool :=
  match s.data with
  | [] => false
  | d :: _ => d = c

/-- JavaScript `hay.includes(needle)` on character lists: some split of
`hay` has `needle` in the middle.  Executable so that concrete instances
evaluate. -/
def subOccurs (needle hay : List Char) : Bool :=
  hay.tails.any (fun t => needle.isPrefixOf t)

/-- Value of a digit string, most significant first. -/
def digitsVal (ds : List Char) : Nat :=
  ds.foldl (fun a c => a * 10 + (c.toNat - '0'.toNat)) 0

/-- Value of a hexadecimal digit string. -/
def hexDigitsVal (ds : List Char) : Nat :=
  ds.foldl (fun a c =>
    a * 16 +
      (if '0' ≤ c ∧ c ≤ '9' then c.toNat - '0'.toNat
       else if 'a' ≤ c ∧ c ≤ 'f' then c.toNat - 'a'.toNat + 10
       else c.toNat - 'A'.toNat + 10)) 0

/-- Value of an octal digit string. -/
def octDigitsVal (ds : List Char) : Nat :=
  ds.foldl (fun a c => a * 8 + (c.toNat - '0'.toNat)) 0

/-- Value of a binary digit string. -/
def binDigitsVal (ds : List Char) : Nat :=
  ds.foldl (fun a c => a * 2 + (c.toNat - '0'.toNat)) 0

/-! ## JavaScript numbers and `Number(string)` -/

/-- A JavaScript number as relevant to this program: an exact rational
idealisation of a finite double, one of the two infinities, or NaN. -/
inductive JsNum where
  | fin (q : Rat)
  | posInf
  | negInf
  | nan
deriving DecidableEq

/-- Exponent suffix of a decimal literal: empty remainder means exponent 0;
`e`/`E` followed by an optionally signed digit string is the exponent; any
other remainder makes the whole literal invalid (`none`). -/
def expPart (cs : List Char) : Option Int :=
  match cs with
  | [] => some 0
  | c :: rest =>
    if c = 'e' ∨ c = 'E' then
      match rest with
      | '+' :: ds =>
        if ds ≠ [] ∧ ds.all (·.isDigit) then some (digitsVal ds) else none
      | '-' :: ds =>
        if ds ≠ [] ∧ ds.all (·.isDigit) then some (-(digitsVal ds : Int)) else none
      | ds =>
        if ds ≠ [] ∧ ds.all (·.isDigit) then some (digitsVal ds) else none
    else none

/-- Unsigned decimal literal of the JavaScript string-numeric grammar:
`digits [. digits] [exponent]` or `. digits [exponent]`, evaluated exactly as
`mantissa * 10 ^ (exponent - fractionLength)`. -/
def decLiteral (cs : List Char) : Option Rat :=
  let intDs := cs.takeWhile (·.isDigit)
  let rest := cs.dropWhile (·.isDigit)
  match rest with
  | '.' :: rest2 =>
    let fracDs := rest2.takeWhile (·.isDigit)
    let rest3 := rest2.dropWhile (·.isDigit)
    if intDs = [] ∧ fracDs = [] then none
    else
      match expPart rest3 with
      | some e =>
        some ((digitsVal (intDs ++ fracDs) : Rat) *
          (10 : Rat) ^ (e - (fracDs.length : Int)))
      | none => none
  | _ =>
    if intDs = [] then none
    else
      match expPart rest with
      | some e => some ((digitsVal intDs : Rat) * (10 : Rat) ^ e)
      | none => none

/-- JavaScript `Number(string)` (ECMAScript `StringNumericLiteral`): trim
whitespace; empty means `0`; unsigned hex/octal/binary literals; otherwise an
optionally signed `Infinity` or decimal literal; anything else is NaN. -/
def jsToNumber (s : String) : JsNum :=
  let cs := ((s.data.dropWhile isJsWhitespace).reverse.dropWhile isJsWhitespace).reverse
  match cs with
  | [] => .fin 0
  | _ =>
    match cs with
    | '0' :: x :: ds =>
      if (x = 'x' ∨ x = 'X') ∧ ds ≠ [] ∧
          ds.all (fun c => c.isDigit ∨ ('a' ≤ c ∧ c ≤ 'f') ∨ ('A' ≤ c ∧ c ≤ 'F')) then
        .fin (hexDigitsVal ds)
      else if (x = 'o' ∨ x = 'O') ∧ ds ≠ [] ∧ ds.all (fun c => '0' ≤ c ∧ c ≤ '7') then
        .fin (octDigitsVal ds)
      else if (x = 'b' ∨ x = 'B') ∧ ds ≠ [] ∧ ds.all (fun c => c = '0' ∨ c = '1') then
        .fin (binDigitsVal ds)
      else
        jsSignedDec cs
    | _ => jsSignedDec cs
where
  /-- Signed branch: optional sign, then `Infinity` or a decimal literal. -/
  jsSignedDec (cs : List Char) : JsNum :=
    let signNeg : Bool := match cs with | '-' :: _ => true | _ => false
    let body : List Char :=
      match cs with
      | '+' :: r => r
      | '-' :: r => r
      | r => r
    if body = "Infinity".data then
      if signNeg then .negInf else .posInf
    else
      match decLiteral body with
      | some q => .fin (if signNeg then -q else q)
      | none => .nan

/-! ## JavaScript values and the nested config object -/

/-- A JavaScript value as stored in the nested config object.  Objects and
arrays are association lists from property names to values (`isArr`
distinguishes arrays for `Array.isArray`); `undefined` is the `undefined`
result of a failed lookup; `fn` stands for function values such as the
built-ins on `Object.prototype`, for which `typeof` gives `'function'`
(truthy, and failing the `=== 'object'` tests of the walks). -/
inductive JValue where
  | undefined
  | null
  | bool (b : Bool)
  | num (n : JsNum)
  | str (s : String)
  | obj (isArr : Bool) (fields : List (String × JValue))
  | fn (id : String)

/-- Own-property lookup `o[k]` (first binding wins; JavaScript objects have
unique keys, on which all three operations agree with this model). -/
def objGet (fields : List (String × JValue)) (k : String) : Option JValue :=
  match fields with
  | [] => none
  | (k', v) :: rest => if k' = k then some v else objGet rest k

/-- Property write `o[k] = v`: overwrite the binding if present, else append. -/
def objSet : List (String × JValue) → String → JValue → List (String × JValue)
  | [], k, v => [(k, v)]
  | (k', v') :: rest, k, v =>
    if k' = k then (k, v) :: rest else (k', v') :: objSet rest k v

/-- Property removal `delete o[k]`. -/
def objDelete : List (String × JValue) → String → List (String × JValue)
  | [], _ => []
  | (k', v') :: rest, k =>
    if k' = k then objDelete rest k else (k', v') :: objDelete rest k

/-- The walk of `ConfigService.get` (`config.ts` lines 56-69) specialised to
an object whose prototype chain is empty: step into `value[k]` while `value`
is a truthy object with an own property `k`, else return `undefined`.  The
prototype-aware walk `pGetLoop` below uses it for the remainder of a path
that has entered `Object.prototype` itself. -/
def getLoop : List String → JValue → JValue
  | [], v => v
  | k :: rest, v =>
    match v with
    | .obj _ fields =>
      match objGet fields k with
      | some child => getLoop rest child
      | none => .undefined
    | _ => .undefined

/-- The walk of `ConfigService.set` (`config.ts` lines 71-84) specialised to
an object whose prototype chain is empty: create an own `{}` at any
intermediate key whose current value is missing, falsy, or not an object,
then assign the final key as an own property.  `pSetLoop` below uses it
inside `Object.prototype`. -/
def setLoop : List String → JValue → List (String × JValue) → List (String × JValue)
  | [], _, cur => cur
  | [k], v, cur => objSet cur k v
  | k :: k2 :: rest, v, cur =>
    let child : Bool × List (String × JValue) :=
      match objGet cur k with
      | some (.obj a f) => (a, f)
      | _ => (false, [])
    objSet cur k (.obj child.1 (setLoop (k2 :: rest) v child.2))

/-- The walk of `ConfigService.delete` (`config.ts` lines 86-99) specialised
to an object whose prototype chain is empty: return (leaving the object
unchanged) if an intermediate key is missing, falsy, or not an object; else
remove the final key from its parent.  `pDelLoop` below uses it inside
`Object.prototype`. -/
def delLoop : List String → List (String × JValue) → List (String × JValue)
  | [], cur => cur
  | [k], cur => objDelete cur k
  | k :: k2 :: rest, cur =>
    match objGet cur k with
    | some (.obj a f) => objSet cur k (.obj a (delLoop (k2 :: rest) f))
    | _ => cur

/-- The early-return condition of the chain-free `delete` walk `delLoop`:
some intermediate segment is missing, falsy, or not an object. -/
def delBlocked : List String → List (String × JValue) → Bool
  | [], _ => false
  | [_], _ => false
  | k :: k2 :: rest, cfg =>
    match objGet cfg k with
    | some (.obj _ f) => delBlocked (k2 :: rest) f
    | _ => true

/-! ## The config walks under the `Object.prototype` chain

`ConfigService.get` tests `k in value`, and the `in` operator consults the
prototype chain: `'toString' in {}` is true.  Property reads `value[k]`
likewise fall back to inherited properties, `value['__proto__']` hits the
inherited accessor and yields the prototype object, assignment to
`__proto__` goes through that accessor instead of creating an own property,
and `delete` removes own properties only.  The walks below therefore carry,
besides the current object, the own data properties of the shared
`Object.prototype` (the `proto` argument, mutable because a walk can enter
the prototype through a `__proto__` segment and write to or delete from it).
Every plain object of the config tree has `Object.prototype` as its
prototype.  Three simplifications, each documented where it occurs and
irrelevant to the theorems below (which either evaluate concrete states or
hypothesise paths avoiding `__proto__` and the prototype's property names):
arrays are given `Object.prototype` directly, eliding `Array.prototype`;
reassignment of an object's prototype -- an object-valued write through the
`__proto__` accessor -- leaves the fixed chain unchanged, as the
primitive-valued write does in JavaScript; and inside `Object.prototype`
itself (whose own prototype is null) the walks proceed as the chain-free
`getLoop`/`setLoop`/`delLoop`, conflating the prototype's own `__proto__`
accessor, which would yield null there, with an absent property. -/

/-- The `value && typeof value === 'object'` test of the walks: a truthy
object (or array) exposes its fields; anything else fails the test --
`null` is falsy although its `typeof` is `'object'`, and a function is
truthy but of `typeof` `'function'`. -/
def asObjFields : JValue → Option (Bool × List (String × JValue))
  | .obj a f => some (a, f)
  | _ => none

/-- Walk of `ConfigService.get` (`config.ts` lines 56-69) under the
prototype chain: `k in value` holds, and `value[k]` is read, when `k` is an
own property, the `__proto__` accessor (yielding the prototype object), or
an own property of `Object.prototype`; otherwise the loop returns
`undefined`.  Non-object values (including functions) stop the walk. -/
def pGetLoop : List String → List (String × JValue) → JValue → JValue
  | [], _, v => v
  | k :: rest, proto, v =>
    match asObjFields v with
    | some (_, fields) =>
      match objGet fields k with
      | some child => pGetLoop rest proto child
      | none =>
        if k = "__proto__" then getLoop rest (.obj false proto)
        else
          match objGet proto k with
          | some child => pGetLoop rest proto child
          | none => .undefined
    | none => .undefined

/-- Walk of `ConfigService.set` (`config.ts` lines 71-84) under the
prototype chain, returning the updated `(proto, object)` pair.  An
intermediate `current[k]` that is a truthy object is entered whether it is
an own object, the prototype object itself (reached through the `__proto__`
accessor), or an object inherited from the prototype (in which case the
updated object replaces the prototype's entry); any other `current[k]` is
replaced by a fresh own `{}`.  The final assignment writes an own property,
except that `current['__proto__'] = v` hits the inherited accessor when no
own `__proto__` data property exists and then creates nothing. -/
def pSetLoop : List String → JValue → List (String × JValue) →
    List (String × JValue) → List (String × JValue) × List (String × JValue)
  | [], _, proto, cur => (proto, cur)
  | [k], v, proto, cur =>
    if k = "__proto__" then
      match objGet cur k with
      | some _ => (proto, objSet cur k v)
      | none => (proto, cur)
    else (proto, objSet cur k v)
  | k :: k2 :: rest, v, proto, cur =>
    match objGet cur k with
    | some c =>
      match asObjFields c with
      | some (a, f) =>
        let r := pSetLoop (k2 :: rest) v proto f
        (r.1, objSet cur k (.obj a r.2))
      | none =>
        let r := pSetLoop (k2 :: rest) v proto []
        (r.1, objSet cur k (.obj false r.2))
    | none =>
      if k = "__proto__" then
        (setLoop (k2 :: rest) v proto, cur)
      else
        match objGet proto k with
        | some c =>
          match asObjFields c with
          | some (a, f) =>
            let r := pSetLoop (k2 :: rest) v proto f
            (objSet r.1 k (.obj a r.2), cur)
          | none =>
            let r := pSetLoop (k2 :: rest) v proto []
            (r.1, objSet cur k (.obj false r.2))
        | none =>
          let r := pSetLoop (k2 :: rest) v proto []
          (r.1, objSet cur k (.obj false r.2))

/-- Walk of `ConfigService.delete` (`config.ts` lines 86-99) under the
prototype chain, returning the updated `(proto, object)` pair: the walk
returns early when `current[k]` -- own, the `__proto__` accessor, or
inherited -- is falsy or not an object; it enters the prototype object
through a `__proto__` segment (continuing there as the chain-free `delLoop`,
so it can remove the shared built-ins) or an inherited object (whose update
replaces the prototype's entry); finally `delete current[last]` removes an
own property only. -/
def pDelLoop : List String → List (String × JValue) →
    List (String × JValue) → List (String × JValue) × List (String × JValue)
  | [], proto, cur => (proto, cur)
  | [k], proto, cur => (proto, objDelete cur k)
  | k :: k2 :: rest, proto, cur =>
    match objGet cur k with
    | some c =>
      match asObjFields c with
      | some (a, f) =>
        let r := pDelLoop (k2 :: rest) proto f
        (r.1, objSet cur k (.obj a r.2))
      | none => (proto, cur)
    | none =>
      if k = "__proto__" then
        (delLoop (k2 :: rest) proto, cur)
      else
        match objGet proto k with
        | some c =>
          match asObjFields c with
          | some (a, f) =>
            let r := pDelLoop (k2 :: rest) proto f
            (objSet r.1 k (.obj a r.2), cur)
          | none => (proto, cur)
        | none => (proto, cur)

/-- The early-return condition of `ConfigService.delete` under the prototype
chain: some step of the walk meets a `current[k]` (own, accessor, or
inherited) that is falsy or not an object. -/
def pDelBlocked : List String → List (String × JValue) →
    List (String × JValue) → Bool
  | [], _, _ => false
  | [_], _, _ => false
  | k :: k2 :: rest, proto, cur =>
    match objGet cur k with
    | some c =>
      match asObjFields c with
      | some (_, f) => pDelBlocked (k2 :: rest) proto f
      | none => true
    | none =>
      if k = "__proto__" then delBlocked (k2 :: rest) proto
      else
        match objGet proto k with
        | some c =>
          match asObjFields c with
          | some (_, f) => pDelBlocked (k2 :: rest) proto f
          | none => true
        | none => true

/-- `ConfigService.get(key)` on the state `(proto, config)`: split on dots
and walk from the root object. -/
def csGet (proto config : List (String × JValue)) (key : String) : JValue :=
  pGetLoop (jsSplit key '.') proto (.obj false config)

/-- `ConfigService.set(key, value)` on the state `(proto, config)`,
returning the updated state. -/
def csSet (proto config : List (String × JValue)) (key : String) (v : JValue) :
    List (String × JValue) × List (String × JValue) :=
  pSetLoop (jsSplit key '.') v proto config

/-- `ConfigService.delete(key)` on the state `(proto, config)`, returning
the updated state. -/
def csDelete (proto config : List (String × JValue)) (key : String) :
    List (String × JValue) × List (String × JValue) :=
  pDelLoop (jsSplit key '.') proto config

/-- Two key paths diverge: they agree on a (possibly empty) common prefix and
then differ in the next segment, so neither is a prefix of the other. -/
inductive Diverge : List String → List String → Prop
  | head (a b : String) (p q : List String) : a ≠ b → Diverge (a :: p) (b :: q)
  | cons (a : String) (p q : List String) : Diverge p q → Diverge (a :: p) (a :: q)

/-! ## The `config set` value coercion (`ConfigCommand.set`, deploy.ts lines 406-429) -/

/-- Coercion performed by the `config set` command on its string argument,
parameterised by the external `JSON.parse` (`jsonParse k = none` models a
parse exception, in which case the raw string is kept).  Branch order is
that of the source: lower-cased `true`/`false`, then the not-NaN numeric
test, then JSON for strings starting with a brace or bracket, else the
string itself. -/
def coerceValue (jsonParse : String → Option JValue) (value : String) : JValue :=
  if jsToLower value = "true" then .bool true
  else if jsToLower value = "false" then .bool false
  else if jsToNumber value ≠ .nan then .num (jsToNumber value)
  else if jsStartsWithChar value '\x7b' || jsStartsWithChar value '[' then
    match jsonParse value with
    | some v => v
    | none => .str value
  else .str value

/-! ## Sensitive-value masking and `config list` printing
(`ConfigCommand.maskSensitiveValue` / `printConfigObject`, deploy.ts lines 462-485) -/

/-- The sensitive key fragments of `ConfigCommand.maskSensitiveValue`. -/
def sensitiveKeys : List String := ["token", "password", "secret", "key", "apiKey"]

/-- The truncation `value.substring(0,4) + "..." + value.substring(len-4)`
for strings longer than 8 characters, `"***"` otherwise. -/
def maskString (s : String) : String :=
  if 8 < s.data.length then
    String.mk (s.data.take 4) ++ "..." ++ String.mk (s.data.drop (s.data.length - 4))
  else "***"

/-- `ConfigCommand.maskSensitiveValue(key, value)`: mask only string values
whose lower-cased full key contains one of the sensitive fragments; all other
values pass through unchanged. -/
def maskSensitiveValue (key : String) (v : JValue) : JValue :=
  match v with
  | .str s =>
    if sensitiveKeys.any (fun sk => subOccurs sk.data (jsToLower key).data) then
      .str (maskString s)
    else .str s
  | other => other

/-- Leaf lines printed by `ConfigCommand.printConfigObject`: recurse into
truthy non-array objects with the dotted key as prefix, and print every other
value through `maskSensitiveValue`.  Returns the `(fullKey, displayedValue)`
pairs in print order. -/
def linesOf : String → List (String × JValue) → List (String × JValue)
  | _, [] => []
  | pre, (k, v) :: rest =>
    let fullKey := if pre = "" then k else pre ++ "." ++ k
    (match v with
     | .obj false fields => linesOf fullKey fields
     | other => [(fullKey, maskSensitiveValue fullKey other)]) ++ linesOf pre rest

/-- Same traversal as `linesOf` but pairing each full key with the raw stored
value, used to state what the displayed value is a function of. -/
def rawLines : String → List (String × JValue) → List (String × JValue)
  | _, [] => []
  | pre, (k, v) :: rest =>
    let fullKey := if pre = "" then k else pre ++ "." ++ k
    (match v with
     | .obj false fields => rawLines fullKey fields
     | other => [(fullKey, other)]) ++ rawLines pre rest

/-! ## Command handlers as effect traces -/

/-- Observable effects of a command handler: console output, an HTTP request,
an interactive prompt, a config write or save, or a process exit. -/
inductive Effect where
  | print (s : String)
  | http (method : String) (path : String)
  | prompt (message : String)
  | configSet (key : String)
  | configSave
  | exit (code : Nat)
deriving DecidableEq

/-- Number of HTTP requests in a trace. -/
def countHttp (t : List Effect) : Nat :=
  (t.filter fun e => match e with | .http _ _ => true | _ => false).length

/-- Whether a trace exits the process. -/
def hasExit (t : List Effect) : Bool :=
  t.any fun e => match e with | .exit _ => true | _ => false

/-- The login warning printed by the gated handlers of every command file
except `asset.ts`. -/
def loginWarning : String := "❌ Please login first: gamebuild auth login"

/-- The login warning literal as it appears (mis-encoded) in `asset.ts`. -/
def assetLoginWarning : String := "âŒ Please login first: gamebuild auth login"

/-- The project-marker warning printed by handlers that require a linked
local project. -/
def noProjectWarning : String :=
  "❌ No GameBuild project found. Run \"gamebuild game init\" first."

/-- The authentication gate placed at the top of a gated handler body:
`if (!this.authService.isAuthenticated()) { console.log(warn); return; }`
followed by the rest of the handler.  `AuthService.isAuthenticated` is the
truthiness of the stored `auth.token` config value. -/
def authGated (auth : Bool) (warn : String) (body : List Effect) : List Effect :=
  if auth then body else [.print warn]

/-- The handlers that begin with the authentication gate, paired with the
warning literal each prints.  Every subcommand of every domain command is
listed except the eight ungated ones modelled below
(`guild list/info/join/leave`, `asset list/info/transfer/burn`). -/
def gatedHandlers : List (String × String) :=
  [("GameCommand.create", loginWarning),
   ("GameCommand.list", loginWarning),
   ("GameCommand.info", loginWarning),
   ("GameCommand.delete", loginWarning),
   ("GameCommand.init", loginWarning),
   ("BuildCommand.start", loginWarning),
   ("BuildCommand.status", loginWarning),
   ("BuildCommand.list", loginWarning),
   ("BuildCommand.logs", loginWarning),
   ("BuildCommand.download", loginWarning),
   ("DeployCommand.start", loginWarning),
   ("DeployCommand.status", loginWarning),
   ("DeployCommand.list", loginWarning),
   ("DeployCommand.rollback", loginWarning),
   ("DeployCommand.logs", loginWarning),
   ("GuildCommand.create", loginWarning),
   ("AssetCommand.mint", assetLoginWarning),
   ("AssetCommand.issueErc20", assetLoginWarning),
   ("AssetCommand.issueErc721", assetLoginWarning),
   ("AssetCommand.mintErc721", assetLoginWarning),
   ("AssetCommand.listErc20", assetLoginWarning),
   ("AssetCommand.listErc721", assetLoginWarning),
   ("AdCommand.create", loginWarning),
   ("AdCommand.list", loginWarning),
   ("AdCommand.info", loginWarning),
   ("AdCommand.start", loginWarning),
   ("AdCommand.pause", loginWarning),
   ("AdCommand.stats", loginWarning),
   ("AdCommand.managePlacements", loginWarning),
   ("AdCommand.revenue", loginWarning),
   ("AnalyticsCommand.overview", loginWarning),
   ("AnalyticsCommand.players", loginWarning),
   ("AnalyticsCommand.revenue", loginWarning),
   ("AnalyticsCommand.events", loginWarning),
   ("AnalyticsCommand.retention", loginWarning),
   ("AnalyticsCommand.export", loginWarning),
   ("AnalyticsCommand.realtime", loginWarning),
   ("IdManagementCommand.createIdentity", loginWarning),
   ("IdManagementCommand.linkWallet", loginWarning),
   ("IdManagementCommand.verifyIdentity", loginWarning),
   ("IdManagementCommand.manageProfile", loginWarning),
   ("IdManagementCommand.listIdentities", loginWarning),
   ("IdManagementCommand.viewReputation", loginWarning),
   ("IdManagementCommand.managePermissions", loginWarning)]

/-- A guild member as printed by `guild info`. -/
structure Member where
  id : String
  displayName : String

/-- A guild record as the guild handlers consume it. -/
structure Guild where
  id : String
  name : String
  description : String
  members : List Member

/-- An asset record as the asset handlers consume it. -/
structure AssetRec where
  id : String
  name : String
  description : String
  tokenId : String
  owner : String
  ipfsUrl : String

/-- `GuildCommand.list` (guild.ts lines 101-118): no authentication gate; the
`GET /v1/guilds` request of `GuildService.listGuilds` is issued immediately.
The `options.format === 'json'` branch dumps the response as JSON (rendered
here as a print of the raw response handle). -/
def guildListTrace (fmt : String) (guilds : List Guild) : List Effect :=
  [.http "GET" "/v1/guilds"] ++
  (if fmt = "json" then [.print "<json of guilds>"]
   else if guilds.length = 0 then [.print "📝 No guilds found."]
   else
     [.print "🏰 Guilds:"] ++
     guilds.flatMap (fun g =>
       [.print ("<index>. " ++ g.name),
        .print ("   ID: " ++ g.id),
        .print ("   Description: " ++ g.description),
        .print ""]))

/-- `GuildCommand.info` (guild.ts lines 120-133): no authentication gate. -/
def guildInfoTrace (guildId : String) (g : Guild) : List Effect :=
  [.http "GET" ("/v1/guilds/" ++ guildId),
   .print "🏰 Guild Information",
   .print ("Name: " ++ g.name),
   .print ("ID: " ++ g.id),
   .print ("Description: " ++ g.description),
   .print ("Members: " ++ toString g.members.length)] ++
  (if 0 < g.members.length then
     [.print "Members:"] ++
     g.members.map (fun m => .print ("   • " ++ m.displayName ++ " (" ++ m.id ++ ")"))
   else [])

/-- `GuildCommand.join` (guild.ts lines 135-138): no authentication gate. -/
def guildJoinTrace (guildId : String) : List Effect :=
  [.http "POST" ("/v1/guilds/" ++ guildId ++ "/join"),
   .print "✅ Joined guild successfully!"]

/-- `GuildCommand.leave` (guild.ts lines 140-143): no authentication gate. -/
def guildLeaveTrace (guildId : String) : List Effect :=
  [.http "POST" ("/v1/guilds/" ++ guildId ++ "/leave"),
   .print "✅ Left guild successfully!"]

/-- `AssetCommand.list` (asset.ts lines 176-195): no authentication gate. -/
def assetListTrace (fmt : String) (assets : List AssetRec) : List Effect :=
  [.http "GET" "/v1/assets"] ++
  (if fmt = "json" then [.print "<json of assets>"]
   else if assets.length = 0 then [.print "ðŸ“ No assets found."]
   else
     [.print "ðŸŽ¨ Assets:"] ++
     assets.flatMap (fun a =>
       [.print ("<index>. " ++ a.name),
        .print ("   ID: " ++ a.id),
        .print ("   Token: " ++ a.tokenId),
        .print ("   Owner: " ++ a.owner),
        .print ("   IPFS: " ++ a.ipfsUrl),
        .print ""]))

/-- `AssetCommand.info` (asset.ts lines 197-206): no authentication gate. -/
def assetInfoTrace (assetId : String) (a : AssetRec) : List Effect :=
  [.http "GET" ("/v1/assets/" ++ assetId),
   .print "ðŸŽ¨ Asset Information",
   .print ("Name: " ++ a.name),
   .print ("ID: " ++ a.id),
   .print ("Token: " ++ a.tokenId),
   .print ("Owner: " ++ a.owner),
   .print ("IPFS: " ++ a.ipfsUrl),
   .print ("Description: " ++ a.description)]

/-- `AssetCommand.transfer` (asset.ts lines 208-211): no authentication gate;
the recipient address travels in the unmodelled request body. -/
def assetTransferTrace (assetId _toAddress : String) : List Effect :=
  [.http "POST" ("/v1/assets/" ++ assetId ++ "/transfer"),
   .print "âœ… Asset transferred successfully!"]

/-- `AssetCommand.burn` (asset.ts lines 213-216): no authentication gate. -/
def assetBurnTrace (assetId : String) : List Effect :=
  [.http "POST" ("/v1/assets/" ++ assetId ++ "/burn"),
   .print "âœ… Asset burned successfully!"]

/-! ## The deploy start handler and the `deploy` alias (deploy.ts) -/

/-- Options object received by `DeployCommand.start`. -/
structure DeployOpts where
  buildId : Option String
  env : String
  platform : Option String
deriving DecidableEq

/-- Raw command-line flags of a `deploy` invocation before commander applies
option defaults. -/
structure DeployFlags where
  buildId : Option String
  env : Option String
  platform : Option String

/-- The local project marker (`.gamebuild.json`) as `deploy start` uses it. -/
structure ProjectMarker where
  gameId : String

/-- A build record; only the id is consumed by `deploy start`. -/
structure BuildRec where
  id : String

/-- A game record; only the platform is consumed by `deploy start`. -/
structure GameRec where
  platform : String

/-- A deployment platform choice (`DeployService.getAvailablePlatforms`). -/
structure PlatformOption where
  name : String
  value : String
  description : String

/-- A deployment record as printed by `deploy start`. -/
structure DeploymentRec where
  id : String
  environment : String
  platform : String
  status : String
  url : Option String

/-- `DeployService.getAvailablePlatforms` (part of the deploy service): a
fixed table keyed by the game type, with a one-entry default. -/
def getAvailablePlatforms (gameType : String) : List PlatformOption :=
  if gameType = "web" then
    [⟨"🌐 GameBuild Hosting", "gamebuild", "Built-in hosting platform"⟩,
     ⟨"☁️ Netlify", "netlify", "Deploy to Netlify"⟩,
     ⟨"⚡ Vercel", "vercel", "Deploy to Vercel"⟩,
     ⟨"🔥 Firebase", "firebase", "Deploy to Firebase Hosting"⟩,
     ⟨"📦 GitHub Pages", "github-pages", "Deploy to GitHub Pages"⟩]
  else if gameType = "mobile" then
    [⟨"🍎 App Store", "app-store", "Deploy to Apple App Store"⟩,
     ⟨"🤖 Google Play", "google-play", "Deploy to Google Play Store"⟩,
     ⟨"📱 TestFlight", "testflight", "Deploy to TestFlight (iOS)"⟩,
     ⟨"🧪 Internal Testing", "internal-testing", "Internal testing track"⟩]
  else if gameType = "desktop" then
    [⟨"💻 Steam", "steam", "Deploy to Steam"⟩,
     ⟨"🎮 Itch.io", "itch", "Deploy to Itch.io"⟩,
     ⟨"🪟 Microsoft Store", "microsoft-store", "Deploy to Microsoft Store"⟩,
     ⟨"📦 Direct Download", "direct", "Generate downloadable packages"⟩]
  else if gameType = "console" then
    [⟨"🎮 Nintendo eShop", "nintendo-eshop", "Deploy to Nintendo eShop"⟩,
     ⟨"🎯 PlayStation Store", "playstation-store", "Deploy to PlayStation Store"⟩,
     ⟨"🟢 Xbox Store", "xbox-store", "Deploy to Xbox Store"⟩]
  else
    [⟨"🌐 GameBuild Hosting", "gamebuild", "Built-in hosting platform"⟩]

/-- Tail of `DeployCommand.start` once a build id and platform are fixed:
`POST /v1/deployments` then the success prints. -/
def deployFinishTrace (dep : DeploymentRec) : List Effect :=
  [.http "POST" "/v1/deployments",
   .print "✅ Deployment started!",
   .print ("   Deployment ID: " ++ dep.id),
   .print ("   Environment: " ++ dep.environment),
   .print ("   Platform: " ++ dep.platform),
   .print ("   Status: " ++ dep.status)] ++
  (match dep.url with
   | some u => [.print ("   🌐 Live URL: " ++ u)]
   | none => [])

/-- Platform-resolution part of `DeployCommand.start`: use the flag when
given, else `GET` the game, consult `getAvailablePlatforms`, and prompt only
when more than one choice remains (`promptedPlatform` is the interactive
answer). -/
def deployPlatformTrace (proj : ProjectMarker) (opts : DeployOpts)
    (game : GameRec) (_promptedPlatform : String) (dep : DeploymentRec) :
    List Effect :=
  match opts.platform with
  | some _ => deployFinishTrace dep
  | none =>
    [.http "GET" ("/v1/games/" ++ proj.gameId)] ++
    (let platforms := getAvailablePlatforms game.platform
     if platforms.length = 0 then
       [.print "❌ No deployment platforms available for this game type."]
     else if platforms.length = 1 then
       [.print ("Using platform: " ++ ((platforms.map (·.value)).headD ""))] ++
       deployFinishTrace dep
     else
       [.prompt "Select deployment platform:"] ++ deployFinishTrace dep)

/-- `DeployCommand.start` (deploy.ts lines 100-168) as an effect trace.
`auth` is `AuthService.isAuthenticated()`, `project` the local marker,
`latestBuild` the response behind `getLatestSuccessfulBuild`, `game` the
response behind `getGame`, `promptedPlatform` the interactive platform
answer, and `dep` the response behind `startDeployment`. -/
def deployStartTrace (auth : Bool) (project : Option ProjectMarker)
    (opts : DeployOpts) (latestBuild : Option BuildRec) (game : GameRec)
    (promptedPlatform : String) (dep : DeploymentRec) : List Effect :=
  if !auth then [.print loginWarning]
  else
    match project with
    | none => [.print noProjectWarning]
    | some proj =>
      [.print "🚀 Starting deployment..."] ++
      (match opts.buildId with
       | some _ => deployPlatformTrace proj opts game promptedPlatform dep
       | none =>
         [.http "GET" ("/v1/games/" ++ proj.gameId ++ "/builds")] ++
         (match latestBuild with
          | none =>
            [.print "❌ No successful builds found. Run \"gamebuild build start\" first."]
          | some b =>
            [.print ("Using latest build: " ++ b.id)] ++
            deployPlatformTrace proj opts game promptedPlatform dep))

/-- Option processing of the `deploy start` subcommand registration
(deploy.ts lines 19-31): `--env` defaults to `staging`, the other two flags
pass through. -/
def deployStartCmdOpts (f : DeployFlags) : DeployOpts :=
  ⟨f.buildId, f.env.getD "staging", f.platform⟩

/-- Option processing of the top-level `deploy` alias registration
(deploy.ts lines 84-97), declared with the same three options and the same
`staging` default. -/
def deployDefaultCmdOpts (f : DeployFlags) : DeployOpts :=
  ⟨f.buildId, f.env.getD "staging", f.platform⟩

/-- Behaviour of `deploy start <flags>`: the subcommand action calls
`this.start(options)`. -/
def runDeployStartSub (f : DeployFlags) (auth : Bool)
    (project : Option ProjectMarker) (latestBuild : Option BuildRec)
    (game : GameRec) (promptedPlatform : String) (dep : DeploymentRec) :
    List Effect :=
  deployStartTrace auth project (deployStartCmdOpts f) latestBuild game
    promptedPlatform dep

/-- Behaviour of bare `deploy <flags>`: the alias action also calls
`this.start(options)`. -/
def runDeployDefault (f : DeployFlags) (auth : Bool)
    (project : Option ProjectMarker) (latestBuild : Option BuildRec)
    (game : GameRec) (promptedPlatform : String) (dep : DeploymentRec) :
    List Effect :=
  deployStartTrace auth project (deployDefaultCmdOpts f) latestBuild game
    promptedPlatform dep

/-! ## The auth login handler and the per-command error wrapper -/

/-- `AuthCommand.login` (auth command file, lines 53-93): header print,
prompts when no `--token` flag was given, one `GET <baseUrl>/v1/user/me`
inside `validateToken`, then either the config writes and success print, or
the failure print followed by `process.exit(1)`. -/
def authLoginTrace (tokenFlag urlFlag : Option String)
    (promptUrl : String) (isValid : Bool) : List Effect :=
  [.print "🔐 GameBuild Authentication"] ++
  (match tokenFlag with
   | some _ => []
   | none => [.prompt "Enter your GameBuild API token:", .prompt "API Base URL:"]) ++
  (let baseUrl :=
    match tokenFlag with
    | some _ => urlFlag.getD "https://api.gamebuild.com"
    | none => promptUrl
  [.http "GET" (baseUrl ++ "/v1/user/me")]) ++
  (if isValid then
    [.configSet "auth.token", .configSet "auth.baseUrl", .configSave,
     .print "✅ Successfully authenticated!"]
  else
    [.print "❌ Authentication failed. Please check your token.", .exit 1])

/-- Result of running a handler body: its effect trace and the error it
threw, if any. -/
structure Outcome where
  trace : List Effect
  thrown : Option String

/-- The per-command registration wrapper
`try { await handler } catch (error) { this.handleError(error) }` with
`BaseCommand.handleError` (base.ts lines 10-13) printing
`Error: <message>` and calling `process.exit(1)`. -/
def commandWrapper (o : Outcome) : List Effect :=
  o.trace ++
  (match o.thrown with
   | some msg => [.print ("Error: " ++ msg), .exit 1]
   | none => [])

/-! ## Service-layer error wrapping -/

/-- The parts of an axios error consumed by the service catch blocks:
`error.response?.data?.message` (absent, or present and possibly empty) and
the transport `error.message`. -/
structure ApiError where
  bodyMessage : Option String
  message : String

/-- JavaScript `error.response?.data?.message || error.message`: the body
message unless it is absent or falsy (empty). -/
def jsOrMsg (e : ApiError) : String :=
  match e.bodyMessage with
  | some m => if m = "" then e.message else m
  | none => e.message

/-- Message of the `new Error` thrown by a service catch block with the given
prefix literal. -/
def wrapMessage (pre : String) (e : ApiError) : String :=
  pre ++ jsOrMsg e

/-- Every domain-service operation that wraps an HTTP failure, paired with
the exact message prefix of its catch block.  This is the complete list of
catch blocks of `GuildService`, `BuildService`, `DeployService`,
`GameService`, `AssetService`, `IdManagementService`, `AdService` and
`AnalyticsService`; the two `AuthService` operations are modelled separately
below because their catch blocks differ. -/
def serviceErrorWraps : List (String × String) :=
  [("GuildService.createGuild", "Failed to create guild: "),
   ("GuildService.listGuilds", "Failed to list guilds: "),
   ("GuildService.getGuild", "Failed to get guild: "),
   ("GuildService.joinGuild", "Failed to join guild: "),
   ("GuildService.leaveGuild", "Failed to leave guild: "),
   ("BuildService.startBuild", "Failed to start build: "),
   ("BuildService.getBuild", "Failed to get build: "),
   ("BuildService.listBuilds", "Failed to list builds: "),
   ("BuildService.getLogs", "Failed to get logs: "),
   ("BuildService.downloadBuild", "Failed to download build: "),
   ("DeployService.startDeployment", "Failed to start deployment: "),
   ("DeployService.getDeployment", "Failed to get deployment: "),
   ("DeployService.listDeployments", "Failed to list deployments: "),
   ("DeployService.rollbackDeployment", "Failed to rollback deployment: "),
   ("DeployService.getLogs", "Failed to get logs: "),
   ("DeployService.getLatestSuccessfulBuild", "Failed to get latest build: "),
   ("GameService.createGame", "Failed to create game: "),
   ("GameService.listGames", "Failed to list games: "),
   ("GameService.getGame", "Failed to get game: "),
   ("GameService.deleteGame", "Failed to delete game: "),
   ("AssetService.mintAsset", "Failed to mint asset: "),
   ("AssetService.listAssets", "Failed to list assets: "),
   ("AssetService.getAsset", "Failed to get asset: "),
   ("AssetService.transferAsset", "Failed to transfer asset: "),
   ("AssetService.burnAsset", "Failed to burn asset: "),
   ("AssetService.issueErc20", "Failed to issue ERC20 token: "),
   ("AssetService.issueErc721", "Failed to issue ERC721 collection: "),
   ("AssetService.mintErc721", "Failed to mint ERC721 NFT: "),
   ("AssetService.getErc20Token", "Failed to get ERC20 token: "),
   ("AssetService.getErc721Collection", "Failed to get ERC721 collection: "),
   ("AssetService.getErc721Token", "Failed to get ERC721 token: "),
   ("AssetService.listErc20Tokens", "Failed to list ERC20 tokens: "),
   ("AssetService.listErc721Collections", "Failed to list ERC721 collections: "),
   ("IdManagementService.createIdentity", "Failed to create identity: "),
   ("IdManagementService.linkWallet", "Failed to link wallet: "),
   ("IdManagementService.verifyIdentity", "Failed to verify identity: "),
   ("IdManagementService.getProfile", "Failed to get profile: "),
   ("IdManagementService.updateProfile", "Failed to update profile: "),
   ("IdManagementService.listIdentities", "Failed to list identities: "),
   ("IdManagementService.getReputation", "Failed to get reputation: "),
   ("IdManagementService.addPermission", "Failed to add permission: "),
   ("IdManagementService.removePermission", "Failed to remove permission: "),
   ("IdManagementService.getPermissions", "Failed to get permissions: "),
   ("AdService.createCampaign", "Failed to create campaign: "),
   ("AdService.listCampaigns", "Failed to list campaigns: "),
   ("AdService.getCampaign", "Failed to get campaign: "),
   ("AdService.startCampaign", "Failed to start campaign: "),
   ("AdService.pauseCampaign", "Failed to pause campaign: "),
   ("AdService.getCampaignStats", "Failed to get campaign stats: "),
   ("AdService.listPlacements", "Failed to list placements: "),
   ("AdService.getRevenue", "Failed to get revenue data: "),
   ("AdService.createPlacement", "Failed to create placement: "),
   ("AdService.updateCampaign", "Failed to update campaign: "),
   ("AdService.deleteCampaign", "Failed to delete campaign: "),
   ("AnalyticsService.getOverview", "Failed to get analytics overview: "),
   ("AnalyticsService.getPlayerAnalytics", "Failed to get player analytics: "),
   ("AnalyticsService.getRevenueAnalytics", "Failed to get revenue analytics: "),
   ("AnalyticsService.getEventAnalytics", "Failed to get event analytics: "),
   ("AnalyticsService.getRetentionAnalytics", "Failed to get retention analytics: "),
   ("AnalyticsService.exportData", "Failed to export data: "),
   ("AnalyticsService.getRealTimeData", "Failed to get real-time data: "),
   ("AnalyticsService.trackEvent", "Failed to track event: "),
   ("AnalyticsService.createCustomDashboard", "Failed to create dashboard: "),
   ("AnalyticsService.getCustomDashboards", "Failed to get dashboards: "),
   ("AnalyticsService.getFunnelAnalysis", "Failed to get funnel analysis: "),
   ("AnalyticsService.getSegmentation", "Failed to get segmentation data: ")]

/-- Message of the error thrown by `AuthService.getUserInfo` (auth.ts lines
49-56): only the transport message is interpolated; the response body message
is never consulted. -/
def getUserInfoThrown (e : ApiError) : String :=
  "Failed to get user info: " ++ e.message

/-- `AuthService.validateToken` (auth.ts lines 35-47): any error of the
underlying request is swallowed and the call returns `false`. -/
def validateTokenOutcome (status200 : Bool) (requestFailed : Bool) : Bool :=
  if requestFailed then false else status200

/-! ## Polling loops (BuildService.followLogs, DeployService.followLogs,
BuildService.startWatchBuild) -/

/-- What one poll of a follow-logs loop observes. -/
structure PollView where
  logs : String
  status : String

/-- Rescheduling decision of `BuildService.followLogs` (part of the build
service, lines 136-170): poll again after exactly 2000 ms while the build
status is `building`, else stop. -/
def buildPollSchedule (b : PollView) : Option Nat :=
  if b.status = "building" then some 2000 else none

/-- Rescheduling decision of `DeployService.followLogs` (deploy service,
lines 98-130): poll again after exactly 3000 ms while the deployment status
is `deploying`, else stop. -/
def deployPollSchedule (d : PollView) : Option Nat :=
  if d.status = "deploying" then some 3000 else none

/-- Debounce of the watch-build rebuild callback
(`BuildService.startWatchBuild`): a fixed 1000 ms `setTimeout`. -/
def watchDebounceMs : Nat := 1000

/-- The build follow-logs loop unfolded with fuel: each iteration performs
the `getLogs` and `getBuild` requests, then either reschedules (constant
2000 ms delay) or prints the final status and stops; a poll error prints and
stops.  No interrupt is modelled: any termination visible here happens
without one. -/
def buildFollowLoop (buildId : String) (polls : Nat → Except String PollView) :
    Nat → Nat → List Effect
  | 0, _ => []
  | fuel + 1, i =>
    [.http "GET" ("/v1/builds/" ++ buildId ++ "/logs"),
     .http "GET" ("/v1/builds/" ++ buildId)] ++
    (match polls i with
     | .error msg => [.print ("Error following logs: " ++ msg)]
     | .ok b =>
       match buildPollSchedule b with
       | some _ => buildFollowLoop buildId polls fuel (i + 1)
       | none => [.print ("Build finished with status: " ++ b.status)])

/-- The deployment follow-logs loop unfolded with fuel, with its constant
3000 ms reschedule delay. -/
def deployFollowLoop (deploymentId : String)
    (polls : Nat → Except String PollView) : Nat → Nat → List Effect
  | 0, _ => []
  | fuel + 1, i =>
    [.http "GET" ("/v1/deployments/" ++ deploymentId ++ "/logs"),
     .http "GET" ("/v1/deployments/" ++ deploymentId)] ++
    (match polls i with
     | .error msg => [.print ("Error following logs: " ++ msg)]
     | .ok d =>
       match deployPollSchedule d with
       | some _ => deployFollowLoop deploymentId polls fuel (i + 1)
       | none => [.print ("Deployment finished with status: " ++ d.status)])

/-! ## Lemmas about the object operations -/

theorem splitAux_ne_nil (sep : Char) (cs acc : List Char) :
    splitAux sep cs acc ≠ [] := by
  induction cs generalizing acc with
  | nil => simp [splitAux]
  | cons c rest ih =>
    simp only [splitAux]
    split
    · simp
    · exact ih _

theorem jsSplit_ne_nil (s : String) (sep : Char) : jsSplit s sep ≠ [] := by
  simp [jsSplit, splitAux_ne_nil]

theorem objGet_objSet_self (l : List (String × JValue)) (k : String) (v : JValue) :
    objGet (objSet l k v) k = some v := by
  induction l with
  | nil => simp [objSet, objGet]
  | cons kv rest ih =>
    obtain ⟨k', v'⟩ := kv
    by_cases h : k' = k
    · simp [objSet, objGet, h]
    · simp [objSet, objGet, h, ih]

theorem objGet_objSet_ne (l : List (String × JValue)) (k k' : String) (v : JValue)
    (h : k' ≠ k) : objGet (objSet l k v) k' = objGet l k' := by
  induction l with
  | nil =>
    have h1 : ¬ (k = k') := fun hh => h hh.symm
    simp [objSet, objGet, h1]
  | cons kv rest ih =>
    obtain ⟨k0, v0⟩ := kv
    by_cases h0 : k0 = k
    · have h1 : ¬ (k0 = k') := by
        rw [h0]; exact fun hh => h hh.symm
      have h2 : ¬ (k = k') := fun hh => h hh.symm
      simp only [objSet, if_pos h0, objGet, if_neg h1, if_neg h2]
    · simp only [objSet, if_neg h0, objGet]
      by_cases h1 : k0 = k'
      · simp [h1]
      · simp [h1, ih]

theorem objGet_objDelete_self (l : List (String × JValue)) (k : String) :
    objGet (objDelete l k) k = none := by
  induction l with
  | nil => simp [objDelete, objGet]
  | cons kv rest ih =>
    obtain ⟨k', v'⟩ := kv
    by_cases h : k' = k
    · simp [objDelete, h, ih]
    · simp [objDelete, objGet, h, ih]

theorem objGet_objDelete_ne (l : List (String × JValue)) (k k' : String)
    (h : k' ≠ k) : objGet (objDelete l k) k' = objGet l k' := by
  induction l with
  | nil => simp [objDelete]
  | cons kv rest ih =>
    obtain ⟨k0, v0⟩ := kv
    by_cases h0 : k0 = k
    · have h1 : ¬ (k0 = k') := by
        rw [h0]; exact fun hh => h hh.symm
      simp only [objDelete, if_pos h0, objGet, if_neg h1]
      exact ih
    · simp only [objDelete, if_neg h0, objGet]
      by_cases h1 : k0 = k'
      · simp [h1]
      · simp [h1, ih]

theorem objSet_self (l : List (String × JValue)) (k : String) (v : JValue)
    (h : objGet l k = some v) : objSet l k v = l := by
  induction l with
  | nil => simp [objGet] at h
  | cons kv rest ih =>
    obtain ⟨k', v'⟩ := kv
    by_cases h0 : k' = k
    · simp only [objGet, if_pos h0, Option.some.injEq] at h
      simp [objSet, h0, h]
    · simp only [objGet, if_neg h0] at h
      simp [objSet, h0, ih h]

/-! ## Round-trip and frame lemmas for the config walks -/

theorem delLoop_blocked :
    ∀ (ks : List String) (cfg : List (String × JValue)),
      delBlocked ks cfg = true → delLoop ks cfg = cfg
  | [], _, h => by simp [delBlocked] at h
  | [_], _, h => by simp [delBlocked] at h
  | k :: k2 :: rest, cfg, h => by
    rcases hk : objGet cfg k with _ | v
    · rw [delLoop, hk]
    · cases v with
      | obj a f =>
        simp only [delBlocked, hk] at h
        have hrec := delLoop_blocked (k2 :: rest) f h
        rw [delLoop, hk]
        show objSet cfg k (.obj a (delLoop (k2 :: rest) f)) = cfg
        rw [hrec]
        exact objSet_self _ _ _ hk
      | undefined => rw [delLoop, hk]
      | null => rw [delLoop, hk]
      | bool b => rw [delLoop, hk]
      | num n => rw [delLoop, hk]
      | str s => rw [delLoop, hk]
      | fn i => rw [delLoop, hk]

theorem diverge_shape {p q : List String} (h : Diverge p q) :
    (∃ a p2, p = a :: p2) ∧ (∃ b q2, q = b :: q2) := by
  cases h with
  | head a b p2 q2 hne => exact ⟨⟨_, _, rfl⟩, ⟨_, _, rfl⟩⟩
  | cons a p2 q2 hd => exact ⟨⟨_, _, rfl⟩, ⟨_, _, rfl⟩⟩

/-- A value passing the truthy-object test is an object literal. -/
theorem asObjFields_some {v : JValue} {a : Bool} {f : List (String × JValue)}
    (h : asObjFields v = some (a, f)) : v = .obj a f := by
  cases v <;> simp_all [asObjFields]

theorem pGetLoop_own (k : String) (rest : List String)
    (proto fields : List (String × JValue)) (flag : Bool) (child : JValue)
    (h : objGet fields k = some child) :
    pGetLoop (k :: rest) proto (.obj flag fields) = pGetLoop rest proto child := by
  simp only [pGetLoop, asObjFields, h]

theorem pGetLoop_miss (k : String) (rest : List String)
    (proto fields : List (String × JValue)) (flag : Bool)
    (h : objGet fields k = none) (h1 : ¬ k = "__proto__")
    (h2 : objGet proto k = none) :
    pGetLoop (k :: rest) proto (.obj flag fields) = .undefined := by
  simp only [pGetLoop, asObjFields, h, if_neg h1, h2]

theorem pGetLoop_nonobj (k : String) (rest : List String)
    (proto : List (String × JValue)) (v : JValue) (h : asObjFields v = none) :
    pGetLoop (k :: rest) proto v = .undefined := by
  simp only [pGetLoop, h]

/-- One read step depends on the start object only through the own lookup
of the head segment. -/
theorem pGetLoop_congr (k : String) (rest : List String)
    (proto : List (String × JValue)) (flag : Bool)
    (f1 f2 : List (String × JValue)) (h : objGet f1 k = objGet f2 k) :
    pGetLoop (k :: rest) proto (.obj flag f1) =
      pGetLoop (k :: rest) proto (.obj flag f2) := by
  rcases h2 : objGet f2 k with _ | c
  · rw [h2] at h
    simp only [pGetLoop, asObjFields, h, h2]
  · rw [h2] at h
    simp only [pGetLoop, asObjFields, h, h2]

/-- Round-trip of `set` then `get` along a path that avoids `__proto__` and
the own property names of `Object.prototype`: the prototype is untouched and
the walk re-reads the stored value. -/
theorem pGet_pSet :
    ∀ (ks : List String) (proto : List (String × JValue)), ks ≠ [] →
      (∀ s ∈ ks, ¬ s = "__proto__" ∧ objGet proto s = none) →
      ∀ (flag : Bool) (cur : List (String × JValue)) (v : JValue),
        (pSetLoop ks v proto cur).1 = proto ∧
        pGetLoop ks proto (.obj flag (pSetLoop ks v proto cur).2) = v
  | [], _, h, _, _, _, _ => absurd rfl h
  | [k], proto, _, hseg, flag, cur, v => by
    obtain ⟨hk1, _⟩ := hseg k (List.mem_cons_self k _)
    constructor
    · simp only [pSetLoop, if_neg hk1]
    · simp only [pSetLoop, if_neg hk1]
      rw [pGetLoop_own k [] proto _ flag v (objGet_objSet_self cur k v)]
      rfl
  | k :: k2 :: rest, proto, _, hseg, flag, cur, v => by
    obtain ⟨hk1, hk2⟩ := hseg k (List.mem_cons_self k _)
    have htail : ∀ s ∈ k2 :: rest, ¬ s = "__proto__" ∧ objGet proto s = none :=
      fun s hs => hseg s (List.mem_cons_of_mem k hs)
    have ih := pGet_pSet (k2 :: rest) proto (List.cons_ne_nil k2 rest) htail
    rcases hcur : objGet cur k with _ | c
    · constructor
      · simp only [pSetLoop, hcur, if_neg hk1, hk2]
        exact (ih false [] v).1
      · simp only [pSetLoop, hcur, if_neg hk1, hk2]
        rw [pGetLoop_own k (k2 :: rest) proto _ flag _ (objGet_objSet_self _ _ _)]
        exact (ih false [] v).2
    · rcases hobj : asObjFields c with _ | af
      · constructor
        · simp only [pSetLoop, hcur, hobj]
          exact (ih false [] v).1
        · simp only [pSetLoop, hcur, hobj]
          rw [pGetLoop_own k (k2 :: rest) proto _ flag _ (objGet_objSet_self _ _ _)]
          exact (ih false [] v).2
      · obtain ⟨a, f⟩ := af
        constructor
        · simp only [pSetLoop, hcur, hobj]
          exact (ih false f v).1
        · simp only [pSetLoop, hcur, hobj]
          rw [pGetLoop_own k (k2 :: rest) proto _ flag _ (objGet_objSet_self _ _ _)]
          exact (ih a f v).2

/-- Round-trip of `delete` then `get` along a path that avoids `__proto__`
and the own property names of `Object.prototype`: the prototype is untouched
and the walk then reads `undefined`. -/
theorem pGet_pDel :
    ∀ (ks : List String) (proto : List (String × JValue)), ks ≠ [] →
      (∀ s ∈ ks, ¬ s = "__proto__" ∧ objGet proto s = none) →
      ∀ (flag : Bool) (cur : List (String × JValue)),
        (pDelLoop ks proto cur).1 = proto ∧
        pGetLoop ks proto (.obj flag (pDelLoop ks proto cur).2) = JValue.undefined
  | [], _, h, _, _, _ => absurd rfl h
  | [k], proto, _, hseg, flag, cur => by
    obtain ⟨hk1, hk2⟩ := hseg k (List.mem_cons_self k _)
    constructor
    · rfl
    · exact pGetLoop_miss k [] proto _ flag (objGet_objDelete_self cur k) hk1 hk2
  | k :: k2 :: rest, proto, _, hseg, flag, cur => by
    obtain ⟨hk1, hk2⟩ := hseg k (List.mem_cons_self k _)
    have htail : ∀ s ∈ k2 :: rest, ¬ s = "__proto__" ∧ objGet proto s = none :=
      fun s hs => hseg s (List.mem_cons_of_mem k hs)
    have ih := pGet_pDel (k2 :: rest) proto (List.cons_ne_nil k2 rest) htail
    rcases hcur : objGet cur k with _ | c
    · constructor
      · simp only [pDelLoop, hcur, if_neg hk1, hk2]
      · simp only [pDelLoop, hcur, if_neg hk1, hk2]
        exact pGetLoop_miss k (k2 :: rest) proto cur flag hcur hk1 hk2
    · rcases hobj : asObjFields c with _ | af
      · constructor
        · simp only [pDelLoop, hcur, hobj]
        · simp only [pDelLoop, hcur, hobj]
          rw [pGetLoop_own k (k2 :: rest) proto cur flag c hcur]
          exact pGetLoop_nonobj k2 rest proto c hobj
      · obtain ⟨a, f⟩ := af
        constructor
        · simp only [pDelLoop, hcur, hobj]
          exact (ih flag f).1
        · simp only [pDelLoop, hcur, hobj]
          rw [pGetLoop_own k (k2 :: rest) proto _ flag _ (objGet_objSet_self _ _ _)]
          exact (ih a f).2

/-- The delete walk along `a :: p` changes its start object only at the own
key `a`. -/
theorem pDelLoop_top (a : String) (p : List String) (b : String)
    (hne : b ≠ a) (proto cfg : List (String × JValue)) :
    objGet (pDelLoop (a :: p) proto cfg).2 b = objGet cfg b := by
  cases p with
  | nil => exact objGet_objDelete_ne _ _ _ hne
  | cons c p2 =>
    rcases hk : objGet cfg a with _ | v
    · by_cases hp : a = "__proto__"
      · simp only [pDelLoop, hk, if_pos hp]
      · rcases hq : objGet proto a with _ | w
        · simp only [pDelLoop, hk, if_neg hp, hq]
        · rcases hw : asObjFields w with _ | af
          · simp only [pDelLoop, hk, if_neg hp, hq, hw]
          · obtain ⟨fl, f⟩ := af
            simp only [pDelLoop, hk, if_neg hp, hq, hw]
    · rcases hw : asObjFields v with _ | af
      · simp only [pDelLoop, hk, hw]
      · obtain ⟨fl, f⟩ := af
        simp only [pDelLoop, hk, hw]
        exact objGet_objSet_ne _ _ _ _ hne

/-- Frame property of the delete walk: a read along a diverging path, over
the same prototype, is unaffected by the deletion. -/
theorem pGetLoop_pDelLoop_frame {p q : List String} (hdiv : Diverge p q) :
    ∀ (proto : List (String × JValue)) (flag : Bool)
      (cfg : List (String × JValue)),
      pGetLoop q proto (.obj flag (pDelLoop p proto cfg).2) =
        pGetLoop q proto (.obj flag cfg) := by
  induction hdiv with
  | head a b p2 q2 hne =>
    intro proto flag cfg
    exact pGetLoop_congr b q2 proto flag _ _
      (pDelLoop_top a p2 b (fun hh => hne hh.symm) proto cfg)
  | cons a p2 q2 hd ih =>
    intro proto flag cfg
    obtain ⟨⟨c, p3, hp⟩, _⟩ := diverge_shape hd
    subst hp
    rcases hk : objGet cfg a with _ | v
    · by_cases hpp : a = "__proto__"
      · simp only [pDelLoop, hk, if_pos hpp]
      · rcases hq : objGet proto a with _ | w
        · simp only [pDelLoop, hk, if_neg hpp, hq]
        · rcases hw : asObjFields w with _ | af
          · simp only [pDelLoop, hk, if_neg hpp, hq, hw]
          · obtain ⟨fl, f⟩ := af
            simp only [pDelLoop, hk, if_neg hpp, hq, hw]
    · rcases hw : asObjFields v with _ | af
      · simp only [pDelLoop, hk, hw]
      · obtain ⟨fl, f⟩ := af
        have hv := asObjFields_some hw
        subst hv
        simp only [pDelLoop, hk, hw]
        rw [pGetLoop_own a q2 proto _ flag _ (objGet_objSet_self _ _ _),
          pGetLoop_own a q2 proto _ flag _ hk]
        exact ih proto fl f

/-- The early return of the delete walk leaves the whole state (prototype
and config) exactly unchanged. -/
theorem pDelLoop_blocked :
    ∀ (ks : List String) (proto cur : List (String × JValue)),
      pDelBlocked ks proto cur = true → pDelLoop ks proto cur = (proto, cur)
  | [], _, _, h => by simp [pDelBlocked] at h
  | [_], _, _, h => by simp [pDelBlocked] at h
  | k :: k2 :: rest, proto, cur, h => by
    rcases hk : objGet cur k with _ | v
    · by_cases hp : k = "__proto__"
      · simp only [pDelBlocked, hk, if_pos hp] at h
        simp only [pDelLoop, hk, if_pos hp, delLoop_blocked (k2 :: rest) proto h]
      · rcases hq : objGet proto k with _ | w
        · simp only [pDelLoop, hk, if_neg hp, hq]
        · rcases hw : asObjFields w with _ | af
          · simp only [pDelLoop, hk, if_neg hp, hq, hw]
          · obtain ⟨a, f⟩ := af
            simp only [pDelBlocked, hk, if_neg hp, hq, hw] at h
            have hrec := pDelLoop_blocked (k2 :: rest) proto f h
            have h1 : (pDelLoop (k2 :: rest) proto f).1 = proto := by rw [hrec]
            have h2 : (pDelLoop (k2 :: rest) proto f).2 = f := by rw [hrec]
            have hv := asObjFields_some hw
            subst hv
            simp only [pDelLoop, hk, if_neg hp, hq, hw, h1, h2,
              objSet_self _ _ _ hq]
    · rcases hw : asObjFields v with _ | af
      · simp only [pDelLoop, hk, hw]
      · obtain ⟨a, f⟩ := af
        simp only [pDelBlocked, hk, hw] at h
        have hrec := pDelLoop_blocked (k2 :: rest) proto f h
        have h1 : (pDelLoop (k2 :: rest) proto f).1 = proto := by rw [hrec]
        have h2 : (pDelLoop (k2 :: rest) proto f).2 = f := by rw [hrec]
        have hv := asObjFields_some hw
        subst hv
        simp only [pDelLoop, hk, hw, h1, h2, objSet_self _ _ _ hk]

/-! ## Lemmas about masking, substring containment and lower-casing -/

theorem subOccurs_iff (needle hay : List Char) :
    subOccurs needle hay = true ↔ ∃ l r, hay = l ++ needle ++ r := by
  constructor
  · intro h
    simp only [subOccurs, List.any_eq_true] at h
    obtain ⟨t, ht, hp⟩ := h
    rw [List.mem_tails] at ht
    obtain ⟨l, hl⟩ := ht
    rw [List.isPrefixOf_iff_prefix] at hp
    obtain ⟨r, hr⟩ := hp
    exact ⟨l, r, by rw [← hl, ← hr, List.append_assoc]⟩
  · rintro ⟨l, r, rfl⟩
    simp only [subOccurs, List.any_eq_true]
    refine ⟨needle ++ r, ?_, ?_⟩
    · rw [List.mem_tails]
      exact ⟨l, by rw [List.append_assoc]⟩
    · rw [List.isPrefixOf_iff_prefix]
      exact ⟨r, rfl⟩

/-- A needle that is already lower-case survives lower-casing the haystack. -/
theorem subOccurs_toLower (needle hay : String)
    (h : subOccurs needle.data hay.data = true)
    (hfix : needle.data.map Char.toLower = needle.data) :
    subOccurs needle.data (jsToLower hay).data = true := by
  rw [subOccurs_iff] at h ⊢
  obtain ⟨l, r, hr⟩ := h
  refine ⟨l.map Char.toLower, r.map Char.toLower, ?_⟩
  show (String.mk (hay.data.map Char.toLower)).data = _
  rw [hr]
  simp [hfix]

theorem maskString_length (s : String) (h : 8 < s.data.length) :
    (maskString s).data.length = 11 := by
  simp only [maskString, if_pos h, String.data_append]
  simp only [List.length_append, List.length_take, List.length_drop]
  show min 4 s.data.length + ['.', '.', '.'].length + (s.data.length - (s.data.length - 4)) = 11
  simp only [List.length_cons, List.length_nil]
  omega

/-- Outside the two accidental fixed points (the literal `***` and
11-character strings shaped like their own mask), the mask differs from the
raw string. -/
theorem maskString_ne (s : String) (h1 : s ≠ "***") (h2 : s.data.length ≠ 11) :
    maskString s ≠ s := by
  by_cases h : 8 < s.data.length
  · intro heq
    have := maskString_length s h
    rw [heq] at this
    omega
  · simp only [maskString, if_neg h]
    intro heq
    exact h1 heq.symm

/-- The displayed lines of `config list` are exactly the raw lines passed
through `maskSensitiveValue` at their full key. -/
theorem linesOf_eq_mask_rawLines : ∀ (pre : String) (l : List (String × JValue)),
    linesOf pre l = (rawLines pre l).map (fun p => (p.1, maskSensitiveValue p.1 p.2))
  | _, [] => by simp [linesOf, rawLines]
  | pre, (k, v) :: rest => by
    have ihrest := linesOf_eq_mask_rawLines pre rest
    cases v with
    | obj arr fields =>
      cases arr with
      | false =>
        have ihf := linesOf_eq_mask_rawLines (if pre = "" then k else pre ++ "." ++ k) fields
        simp [linesOf, rawLines, ihf, ihrest]
      | true => simp [linesOf, rawLines, ihrest]
    | undefined => simp [linesOf, rawLines, ihrest]
    | null => simp [linesOf, rawLines, ihrest]
    | bool b => simp [linesOf, rawLines, ihrest]
    | num n => simp [linesOf, rawLines, ihrest]
    | str s => simp [linesOf, rawLines, ihrest]
    | fn i => simp [linesOf, rawLines, ihrest]
termination_by _ l => sizeOf l

/-! ## Lemmas about whitespace and `Number` -/

theorem ws_toLower_fix (c : Char) (h : isJsWhitespace c = true) :
    Char.toLower c = c := by
  have hm : c ∈ jsWhitespaceChars := of_decide_eq_true h
  fin_cases hm <;> decide

theorem dropWhile_ws_all (l : List Char) (h : l.all isJsWhitespace = true) :
    l.dropWhile isJsWhitespace = [] := by
  rw [List.dropWhile_eq_nil_iff]
  intro x hx
  exact List.all_eq_true.1 h x hx

/-- Lower-casing an all-whitespace string cannot produce a string containing
a non-whitespace character. -/
theorem jsToLower_ws_ne (s t : String) (hws : s.data.all isJsWhitespace = true)
    (ht : t.data.all isJsWhitespace = false) : jsToLower s ≠ t := by
  intro heq
  have hd : s.data.map Char.toLower = t.data := congrArg String.data heq
  have hall : t.data.all isJsWhitespace = true := by
    rw [← hd]
    rw [List.all_eq_true] at hws ⊢
    intro x hx
    rw [List.mem_map] at hx
    obtain ⟨c, hc, rfl⟩ := hx
    rw [ws_toLower_fix c (hws c hc)]
    exact hws c hc
  rw [hall] at ht
  exact Bool.noConfusion ht

/-- `Number` of a whitespace-only (possibly empty) string is `0`. -/
theorem jsToNumber_ws (s : String) (h : s.data.all isJsWhitespace = true) :
    jsToNumber s = .fin 0 := by
  have h1 : s.data.dropWhile isJsWhitespace = [] := dropWhile_ws_all _ h
  simp [jsToNumber, h1]

theorem jsToNumber_42 : jsToNumber "42" = .fin 42 := by
  have h : jsToNumber "42" = .fin (((42 : Nat) : Rat) * (10 : Rat) ^ (0 : Int)) := rfl
  rw [h]
  norm_num

/-- Trimming whitespace from a string whose head is not whitespace keeps
that head. -/
theorem trim_head_nonws (c : Char) (t : List Char) (hc : isJsWhitespace c = false) :
    ∃ t2, ((((c :: t).dropWhile isJsWhitespace).reverse.dropWhile
      isJsWhitespace).reverse) = c :: t2 := by
  have h1 : (c :: t).dropWhile isJsWhitespace = c :: t := by
    rw [List.dropWhile_cons, hc]
    simp
  rw [h1]
  have hsuf : (c :: t).reverse.dropWhile isJsWhitespace <:+ (c :: t).reverse :=
    List.dropWhile_suffix _
  have hpre : ((c :: t).reverse.dropWhile isJsWhitespace).reverse <+: (c :: t) := by
    rw [← List.reverse_suffix]
    simpa using hsuf
  have hne : (c :: t).reverse.dropWhile isJsWhitespace ≠ [] := by
    intro h0
    rw [List.dropWhile_eq_nil_iff] at h0
    have := h0 c (by simp)
    rw [this] at hc
    exact Bool.noConfusion hc
  obtain ⟨r, hr⟩ := hpre
  rcases h2 : ((c :: t).reverse.dropWhile isJsWhitespace).reverse with _ | ⟨d, t2⟩
  · exact absurd (by simpa using h2) hne
  · rw [h2] at hr
    rw [List.cons_append] at hr
    injection hr with hd _
    exact ⟨t2, by rw [hd]⟩

/-- A string headed by a non-digit other than a dot is not a decimal literal. -/
theorem decLiteral_bad_head (c : Char) (t : List Char)
    (h1 : c.isDigit = false) (h2 : c ≠ '.') : decLiteral (c :: t) = none := by
  simp only [decLiteral, List.takeWhile_cons, h1, List.dropWhile_cons]
  simp only [Bool.false_eq_true, if_false, reduceCtorEq]
  split
  · rename_i rest2 heq
    injection heq with hd _
    exact absurd hd h2
  · simp

theorem jsSignedDec_bad_head (c : Char) (t : List Char)
    (h1 : c.isDigit = false) (h2 : c ≠ '.') (h3 : c ≠ '+') (h4 : c ≠ '-')
    (h5 : c ≠ 'I') : jsToNumber.jsSignedDec (c :: t) = .nan := by
  have hbody : (match c :: t with
      | '+' :: r => r
      | '-' :: r => r
      | r => r) = c :: t := by
    split
    · rename_i heq
      injection heq with hh _
      exact absurd hh h3
    · rename_i heq
      injection heq with hh _
      exact absurd hh h4
    · rfl
  simp only [jsToNumber.jsSignedDec, hbody]
  have hinf : ¬ (c :: t = "Infinity".data) := by
    rw [show "Infinity".data = 'I' :: "nfinity".data from rfl]
    intro hh
    injection hh with hh1 _
    exact absurd hh1 h5
  rw [if_neg hinf, decLiteral_bad_head c t h1 h2]

/-- `Number` of any string starting with a brace or bracket is NaN. -/
theorem jsToNumber_brace_nan (s : String)
    (h : (jsStartsWithChar s '\x7b' || jsStartsWithChar s '[') = true) :
    jsToNumber s = .nan := by
  rcases hd : s.data with _ | ⟨c, t⟩
  · rw [jsStartsWithChar, jsStartsWithChar] at h
    rw [hd] at h
    simp at h
  · have hc : c = '\x7b' ∨ c = '[' := by
      rw [jsStartsWithChar, jsStartsWithChar] at h
      rw [hd] at h
      simpa using h
    have hcws : isJsWhitespace c = false := by
      rcases hc with rfl | rfl <;> decide
    obtain ⟨t2, ht2⟩ := trim_head_nonws c t hcws
    have hsd : jsToNumber.jsSignedDec (c :: t2) = .nan := by
      rcases hc with rfl | rfl <;>
        exact jsSignedDec_bad_head _ _ (by decide) (by decide) (by decide)
          (by decide) (by decide)
    rw [jsToNumber]
    rw [hd, ht2]
    rcases hc with rfl | rfl
    · exact hsd
    · exact hsd

/-- Lower-casing a string starting with a brace or bracket cannot give
`true` or `false`. -/
theorem jsToLower_brace_ne_bool (s : String)
    (h : (jsStartsWithChar s '\x7b' || jsStartsWithChar s '[') = true) :
    jsToLower s ≠ "true" ∧ jsToLower s ≠ "false" := by
  rcases hd : s.data with _ | ⟨c, t⟩
  · rw [jsStartsWithChar, jsStartsWithChar] at h
    rw [hd] at h
    simp at h
  · have hc : c = '\x7b' ∨ c = '[' := by
      rw [jsStartsWithChar, jsStartsWithChar] at h
      rw [hd] at h
      simpa using h
    constructor
    · intro heq
      have hmap : (c :: t).map Char.toLower = "true".data := by
        have := congrArg String.data heq
        rw [jsToLower, hd] at this
        exact this
      rw [show "true".data = 't' :: "rue".data from rfl] at hmap
      injection hmap with hh _
      rcases hc with rfl | rfl <;> exact absurd hh (by decide)
    · intro heq
      have hmap : (c :: t).map Char.toLower = "false".data := by
        have := congrArg String.data heq
        rw [jsToLower, hd] at this
        exact this
      rw [show "false".data = 'f' :: "alse".data from rfl] at hmap
      injection hmap with hh _
      rcases hc with rfl | rfl <;> exact absurd hh (by decide)

/-! ## Lemmas about effect traces -/

theorem countHttp_append (a b : List Effect) :
    countHttp (a ++ b) = countHttp a + countHttp b := by
  simp [countHttp, List.filter_append]

theorem hasExit_append (a b : List Effect) :
    hasExit (a ++ b) = (hasExit a || hasExit b) := by
  simp [hasExit, List.any_append]

/-! ## Claim theorems -/

/-- C1 (amended): every handler that carries the authentication gate
short-circuits when no bearer token is stored — it prints exactly its login
warning (the fixed string, in the mis-encoded variant for the asset command)
and performs zero HTTP calls, whatever its post-gate body would have done —
while the eight ungated handlers (`guild list/info/join/leave`,
`asset list/info/transfer/burn`) issue their HTTP request without any token
check. -/
theorem auth_gate_amended :
    (∀ p ∈ gatedHandlers, ∀ body : List Effect,
        authGated false p.2 body = [Effect.print p.2] ∧
        countHttp (authGated false p.2 body) = 0) ∧
    (∀ fmt guilds, 1 ≤ countHttp (guildListTrace fmt guilds)) ∧
    (∀ gid g, 1 ≤ countHttp (guildInfoTrace gid g)) ∧
    (∀ gid, countHttp (guildJoinTrace gid) = 1) ∧
    (∀ gid, countHttp (guildLeaveTrace gid) = 1) ∧
    (∀ fmt assets, 1 ≤ countHttp (assetListTrace fmt assets)) ∧
    (∀ aid a, 1 ≤ countHttp (assetInfoTrace aid a)) ∧
    (∀ aid addr, countHttp (assetTransferTrace aid addr) = 1) ∧
    (∀ aid, countHttp (assetBurnTrace aid) = 1) := by
  refine ⟨fun p _ body => ⟨rfl, rfl⟩, ?_, ?_, ?_, ?_, ?_, ?_, ?_, ?_⟩
  · intro fmt guilds
    rw [guildListTrace, countHttp_append]
    exact Nat.le_add_right 1 _
  · intro gid g
    rw [guildInfoTrace, countHttp_append]
    exact Nat.le_add_right 1 _
  · intro gid; rfl
  · intro gid; rfl
  · intro fmt assets
    rw [assetListTrace, countHttp_append]
    exact Nat.le_add_right 1 _
  · intro aid a; rfl
  · intro aid addr; rfl
  · intro aid; rfl

/-- C1 witness: the gate of `DeployCommand.start` at a concrete body. -/
theorem auth_gate_amended_witness :
    authGated false loginWarning [Effect.http "POST" "/v1/deployments"] =
      [Effect.print loginWarning] ∧
    countHttp (authGated false loginWarning [Effect.http "POST" "/v1/deployments"]) = 0 :=
  (auth_gate_amended.1 ("DeployCommand.start", loginWarning)
    (by decide) [Effect.http "POST" "/v1/deployments"])

/-- C1 counterexample: with no stored token, `guild list` still performs its
HTTP request and never prints the login warning, refuting the claim that
every subcommand of every domain command short-circuits. -/
theorem auth_gate_counterexample :
    guildListTrace "table" [] =
      [Effect.http "GET" "/v1/guilds", Effect.print "📝 No guilds found."] ∧
    countHttp (guildListTrace "table" []) = 1 ∧
    guildListTrace "table" [] ≠ [Effect.print loginWarning] := by
  refine ⟨rfl, rfl, ?_⟩
  decide

/-- C2 (amended): `ConfigService` round-trip (config.ts lines 56-99).  For
every state of `Object.prototype` and every dotted-path key whose segments
are neither `__proto__` nor own properties of `Object.prototype`, a `get`
after `set` returns the stored value, a `get` after `delete` returns
`undefined`, and neither operation touches the shared prototype.  For the
remaining keys the prototype chain leaks through
(`config_roundtrip_counterexample`). -/
theorem config_roundtrip_amended (proto cfg : List (String × JValue))
    (key : String) (v : JValue)
    (hseg : ∀ s ∈ jsSplit key '.', ¬ s = "__proto__" ∧ objGet proto s = none) :
    ((csSet proto cfg key v).1 = proto ∧
      csGet (csSet proto cfg key v).1 (csSet proto cfg key v).2 key = v) ∧
    ((csDelete proto cfg key).1 = proto ∧
      csGet (csDelete proto cfg key).1 (csDelete proto cfg key).2 key =
        JValue.undefined) := by
  obtain ⟨hs1, hs2⟩ :=
    pGet_pSet (jsSplit key '.') proto (jsSplit_ne_nil key '.') hseg false cfg v
  obtain ⟨hd1, hd2⟩ :=
    pGet_pDel (jsSplit key '.') proto (jsSplit_ne_nil key '.') hseg false cfg
  refine ⟨⟨hs1, ?_⟩, hd1, ?_⟩
  · show pGetLoop (jsSplit key '.') (csSet proto cfg key v).1
        (.obj false (csSet proto cfg key v).2) = v
    rw [show (csSet proto cfg key v).1 = proto from hs1]
    exact hs2
  · show pGetLoop (jsSplit key '.') (csDelete proto cfg key).1
        (.obj false (csDelete proto cfg key).2) = JValue.undefined
    rw [show (csDelete proto cfg key).1 = proto from hd1]
    exact hd2

/-- C2 witness: on the prototype carrying the built-in `toString`, the key
`a.b.c` (all segments plain) round-trips through `set` and `delete`. -/
theorem config_roundtrip_amended_witness :
    (∀ s ∈ jsSplit "a.b.c" '.',
        ¬ s = "__proto__" ∧ objGet [("toString", JValue.fn "toString")] s = none) ∧
    csGet (csSet [("toString", JValue.fn "toString")] [] "a.b.c"
        (JValue.num (JsNum.fin 5))).1
      (csSet [("toString", JValue.fn "toString")] [] "a.b.c"
        (JValue.num (JsNum.fin 5))).2 "a.b.c" = JValue.num (JsNum.fin 5) ∧
    csGet (csDelete [("toString", JValue.fn "toString")] [] "a.b.c").1
      (csDelete [("toString", JValue.fn "toString")] [] "a.b.c").2 "a.b.c" =
      JValue.undefined := by
  have hseg : ∀ s ∈ jsSplit "a.b.c" '.',
      ¬ s = "__proto__" ∧ objGet [("toString", JValue.fn "toString")] s = none := by
    intro s hs
    rw [show jsSplit "a.b.c" '.' = ["a", "b", "c"] from rfl] at hs
    fin_cases hs <;> exact ⟨by decide, rfl⟩
  have h := config_roundtrip_amended [("toString", JValue.fn "toString")] []
    "a.b.c" (JValue.num (JsNum.fin 5)) hseg
  exact ⟨hseg, h.1.2, h.2.2⟩

/-- C2 counterexample: the unrestricted round-trip is false because of the
prototype chain.  With `Object.prototype` carrying its built-in `toString`
and a config whose own `toString` holds a string, `delete('toString')`
removes the own property but `get('toString')` then returns the inherited
function, not `undefined`; and `set('__proto__', 5)` hits the inherited
accessor and stores nothing, so `get('__proto__')` returns the prototype
object, not the number 5. -/
theorem config_roundtrip_counterexample :
    (csGet (csDelete [("toString", JValue.fn "toString")]
          [("toString", JValue.str "mine")] "toString").1
        (csDelete [("toString", JValue.fn "toString")]
          [("toString", JValue.str "mine")] "toString").2 "toString" =
        JValue.fn "toString" ∧
      JValue.fn "toString" ≠ JValue.undefined) ∧
    ((csSet [("toString", JValue.fn "toString")] [] "__proto__"
          (JValue.num (JsNum.fin 5))).2 = [] ∧
      csGet (csSet [("toString", JValue.fn "toString")] [] "__proto__"
          (JValue.num (JsNum.fin 5))).1
        (csSet [("toString", JValue.fn "toString")] [] "__proto__"
          (JValue.num (JsNum.fin 5))).2 "__proto__" =
        JValue.obj false [("toString", JValue.fn "toString")] ∧
      JValue.obj false [("toString", JValue.fn "toString")] ≠
        JValue.num (JsNum.fin 5)) := by
  refine ⟨⟨rfl, by simp⟩, rfl, rfl, by simp⟩

/-- C3: the `config set` coercion stores lower-cased `true`/`false` as
booleans, numeric strings as their number (`"42"` becomes the number 42),
brace- or bracket-led strings through `JSON.parse` when it succeeds (keeping
the string on a parse failure), and every other string unchanged. -/
theorem config_set_coercion :
    (∀ jsonParse s, jsToLower s = "true" →
        coerceValue jsonParse s = JValue.bool true) ∧
    (∀ jsonParse s, jsToLower s = "false" →
        coerceValue jsonParse s = JValue.bool false) ∧
    (∀ jsonParse s, jsToLower s ≠ "true" → jsToLower s ≠ "false" →
        jsToNumber s ≠ JsNum.nan →
        coerceValue jsonParse s = JValue.num (jsToNumber s)) ∧
    jsToNumber "42" = JsNum.fin 42 ∧
    (∀ jsonParse s v,
        (jsStartsWithChar s '\x7b' || jsStartsWithChar s '[') = true →
        jsonParse s = some v → coerceValue jsonParse s = v) ∧
    (∀ jsonParse s, jsToLower s ≠ "true" → jsToLower s ≠ "false" →
        jsToNumber s = JsNum.nan →
        (jsStartsWithChar s '\x7b' || jsStartsWithChar s '[') = false →
        coerceValue jsonParse s = JValue.str s) := by
  refine ⟨?_, ?_, ?_, jsToNumber_42, ?_, ?_⟩
  · intro jp s h
    simp [coerceValue, h]
  · intro jp s h
    simp [coerceValue, h]
  · intro jp s h1 h2 h3
    simp [coerceValue, h1, h2, h3]
  · intro jp s v h4 h5
    obtain ⟨h1, h2⟩ := jsToLower_brace_ne_bool s h4
    have h3 := jsToNumber_brace_nan s h4
    simp [coerceValue, h1, h2, h3, h4, h5]
  · intro jp s h1 h2 h3 h4
    simp [coerceValue, h1, h2, h3, h4]

/-- C3 witness: the four coercion classes at the concrete inputs of the
claim (`"TRUE"`, `"42"`, a JSON object literal, `"hello"`). -/
theorem config_set_coercion_witness :
    coerceValue (fun _ => none) "TRUE" = JValue.bool true ∧
    coerceValue (fun _ => none) "42" = JValue.num (JsNum.fin 42) ∧
    coerceValue (fun _ => some (JValue.obj false [("a", JValue.num (JsNum.fin 1))]))
        "\x7b\"a\":1\x7d" = JValue.obj false [("a", JValue.num (JsNum.fin 1))] ∧
    coerceValue (fun _ => none) "hello" = JValue.str "hello" := by
  refine ⟨?_, ?_, ?_, ?_⟩
  · exact config_set_coercion.1 _ "TRUE" (by decide)
  · rw [config_set_coercion.2.2.1 _ "42" (by decide) (by decide) (by decide)]
    rw [config_set_coercion.2.2.2.1]
  · exact config_set_coercion.2.2.2.2.1 _ "\x7b\"a\":1\x7d" _ (by decide) rfl
  · exact config_set_coercion.2.2.2.2.2 _ "hello"
      (by decide) (by decide) (by decide) (by decide)

/-- C4 (amended): `config list` displays exactly
`maskSensitiveValue fullKey rawValue` for every leaf entry; for every key
containing `token`, `secret` or `password` the mask applies only to string
values (truncating to at most 11 characters), and the masked string differs
from the raw one except for the fixed points `"***"` and 11-character
strings shaped like their own mask; non-string values are displayed raw. -/
theorem sensitive_masking_amended :
    (∀ pre l, linesOf pre l =
        (rawLines pre l).map (fun p => (p.1, maskSensitiveValue p.1 p.2))) ∧
    (∀ key s,
        (subOccurs "token".data key.data || subOccurs "secret".data key.data ||
          subOccurs "password".data key.data) = true →
        maskSensitiveValue key (JValue.str s) = JValue.str (maskString s)) ∧
    (∀ s : String, s ≠ "***" → s.data.length ≠ 11 → maskString s ≠ s) := by
  refine ⟨linesOf_eq_mask_rawLines, ?_, maskString_ne⟩
  intro key s htrig
  have hany : sensitiveKeys.any
      (fun sk => subOccurs sk.data (jsToLower key).data) = true := by
    rw [Bool.or_eq_true, Bool.or_eq_true] at htrig
    rw [List.any_eq_true]
    rcases htrig with (h | h) | h
    · exact ⟨"token", by simp [sensitiveKeys], subOccurs_toLower _ _ h (by decide)⟩
    · exact ⟨"secret", by simp [sensitiveKeys], subOccurs_toLower _ _ h (by decide)⟩
    · exact ⟨"password", by simp [sensitiveKeys], subOccurs_toLower _ _ h (by decide)⟩
  simp [maskSensitiveValue, hany]

/-- C4 witness: a long stored token is displayed truncated and different
from the raw value. -/
theorem sensitive_masking_amended_witness :
    maskSensitiveValue "auth.token" (JValue.str "secrettoken123") =
      JValue.str (maskString "secrettoken123") ∧
    maskString "secrettoken123" ≠ "secrettoken123" :=
  ⟨sensitive_masking_amended.2.1 "auth.token" "secrettoken123" (by decide),
   sensitive_masking_amended.2.2 "secrettoken123" (by decide) (by decide)⟩

/-- C4 counterexample: a number stored under a key containing `token` is
displayed raw by `config list` — equal to the stored value, not a truncated
mask — refuting the claim for non-string values. -/
theorem sensitive_masking_counterexample :
    subOccurs "token".data ("auth.token").data = true ∧
    maskSensitiveValue "auth.token" (JValue.num (JsNum.fin 42)) =
      JValue.num (JsNum.fin 42) ∧
    linesOf "" [("auth", JValue.obj false [("token", JValue.num (JsNum.fin 42))])] =
      [("auth.token", JValue.num (JsNum.fin 42))] := by
  refine ⟨by decide, rfl, ?_⟩
  simp [linesOf, maskSensitiveValue]

/-- C5: the top-level `deploy` alias and the `deploy start` subcommand are
registered with the same options, the same `staging` default, and the same
action (`this.start`), so their behaviour coincides for every flag
combination and every environment response. -/
theorem deploy_alias_equiv (f : DeployFlags) (auth : Bool)
    (project : Option ProjectMarker) (latestBuild : Option BuildRec)
    (game : GameRec) (promptedPlatform : String) (dep : DeploymentRec) :
    runDeployDefault f auth project latestBuild game promptedPlatform dep =
      runDeployStartSub f auth project latestBuild game promptedPlatform dep := rfl

/-- C6 (amended): every catch block of the domain services re-throws a new
error whose message is its fixed prefix followed by the response-body
`message` when that field is present and non-empty, else the transport
message — so the thrown message always contains the selected one.  The two
`AuthService` operations deviate: `getUserInfo` interpolates only the
transport message even when a body message exists, and `validateToken`
swallows the failure and returns `false`. -/
theorem service_error_wrapping_amended :
    (∀ p ∈ serviceErrorWraps, ∀ e : ApiError,
        (∀ m, e.bodyMessage = some m → m ≠ "" →
          subOccurs m.data (wrapMessage p.2 e).data = true) ∧
        (e.bodyMessage = none →
          subOccurs e.message.data (wrapMessage p.2 e).data = true)) ∧
    (∀ e : ApiError, subOccurs e.message.data (getUserInfoThrown e).data = true) ∧
    (∀ s : Bool, validateTokenOutcome s true = false) := by
  refine ⟨?_, ?_, fun s => rfl⟩
  · intro p _ e
    constructor
    · intro m hm hne
      have hmsg : wrapMessage p.2 e = p.2 ++ m := by
        simp [wrapMessage, jsOrMsg, hm, hne]
      rw [hmsg, subOccurs_iff]
      exact ⟨p.2.data, [], by simp [String.data_append]⟩
    · intro hm
      have hmsg : wrapMessage p.2 e = p.2 ++ e.message := by
        simp [wrapMessage, jsOrMsg, hm]
      rw [hmsg, subOccurs_iff]
      exact ⟨p.2.data, [], by simp [String.data_append]⟩
  · intro e
    rw [subOccurs_iff]
    exact ⟨"Failed to get user info: ".data, [], by simp [getUserInfoThrown, String.data_append]⟩

/-- C6 witness: the guild-creation wrap surfaces a present body message. -/
theorem service_error_wrapping_amended_witness :
    subOccurs "boom".data
      (wrapMessage "Failed to create guild: "
        ⟨some "boom", "socket hang up"⟩).data = true :=
  (service_error_wrapping_amended.1
      ("GuildService.createGuild", "Failed to create guild: ")
      (List.mem_cons_self _ _) ⟨some "boom", "socket hang up"⟩).1 "boom" rfl
      (by decide)

/-- C6 counterexample: `AuthService.getUserInfo` discards a present
response-body message and surfaces only the transport message, refuting the
claim for that service operation. -/
theorem service_error_wrapping_counterexample :
    getUserInfoThrown ⟨some "quota exceeded", "Request failed with status code 500"⟩ =
      "Failed to get user info: Request failed with status code 500" ∧
    subOccurs "quota exceeded".data
      (getUserInfoThrown
        ⟨some "quota exceeded", "Request failed with status code 500"⟩).data = false :=
  ⟨rfl, by decide⟩

/-- C7 (amended): the log-follow loops poll at the constant intervals 2000 ms
(build) and 3000 ms (deployment) — both within 2 to 3 seconds, with no
backoff — and the watch-build debounce is the fixed 1000 ms; but each
follow-logs loop reschedules itself exactly while the polled status is the
running one (`building`/`deploying`), so it also terminates on status
change (or poll error), not only on the process interrupt signal. -/
theorem polling_loops_amended :
    (∀ b d, buildPollSchedule b = some d → d = 2000 ∧ 2000 ≤ d ∧ d ≤ 3000) ∧
    (∀ v d, deployPollSchedule v = some d → d = 3000 ∧ 2000 ≤ d ∧ d ≤ 3000) ∧
    watchDebounceMs = 1000 ∧
    (∀ b, buildPollSchedule b = none ↔ ¬ b.status = "building") ∧
    (∀ v, deployPollSchedule v = none ↔ ¬ v.status = "deploying") := by
  refine ⟨?_, ?_, rfl, ?_, ?_⟩
  · intro b d h
    by_cases hb : b.status = "building"
    · simp [buildPollSchedule, hb] at h
      omega
    · simp [buildPollSchedule, hb] at h
  · intro v d h
    by_cases hv : v.status = "deploying"
    · simp [deployPollSchedule, hv] at h
      omega
    · simp [deployPollSchedule, hv] at h
  · intro b
    by_cases hb : b.status = "building" <;> simp [buildPollSchedule, hb]
  · intro v
    by_cases hv : v.status = "deploying" <;> simp [deployPollSchedule, hv]

/-- C7 witness: a running build is rescheduled at 2000 ms; a finished build
is not rescheduled. -/
theorem polling_loops_amended_witness :
    buildPollSchedule ⟨"", "success"⟩ = none ∧
    (2000 = 2000 ∧ 2000 ≤ 2000 ∧ 2000 ≤ 3000) :=
  ⟨(polling_loops_amended.2.2.2.1 ⟨"", "success"⟩).2 (by decide),
   polling_loops_amended.1 ⟨"", "building"⟩ 2000 (by decide)⟩

/-- C7 counterexample: with every poll answering status `success` and no
interrupt modelled, the build follow-logs loop stops after a single poll —
the trace is already complete at fuel 2 and identical at fuel 50 — refuting
termination only by process interrupt. -/
theorem polling_loops_counterexample :
    buildFollowLoop "b1" (fun _ => Except.ok ⟨"", "success"⟩) 2 0 =
      [Effect.http "GET" "/v1/builds/b1/logs", Effect.http "GET" "/v1/builds/b1",
       Effect.print "Build finished with status: success"] ∧
    buildFollowLoop "b1" (fun _ => Except.ok ⟨"", "success"⟩) 50 0 =
      buildFollowLoop "b1" (fun _ => Except.ok ⟨"", "success"⟩) 2 0 ∧
    hasExit (buildFollowLoop "b1" (fun _ => Except.ok ⟨"", "success"⟩) 50 0) = false :=
  ⟨rfl, rfl, rfl⟩

/-- C8 (amended): the authentication-gate and project-marker precondition
paths of `DeployCommand.start` print their message and return without any
process exit, and the per-command wrapper exits (code 1) exactly when the
handler threw; but `AuthCommand.login` itself calls `process.exit(1)` from
inside the handler when token validation fails. -/
theorem precondition_exit_amended :
    (∀ project opts latestBuild game prompted dep,
        deployStartTrace false project opts latestBuild game prompted dep =
          [Effect.print loginWarning]) ∧
    (∀ opts latestBuild game prompted dep,
        deployStartTrace true none opts latestBuild game prompted dep =
          [Effect.print noProjectWarning]) ∧
    (∀ o : Outcome, hasExit o.trace = false →
        (hasExit (commandWrapper o) = true ↔ o.thrown.isSome = true)) := by
  refine ⟨fun _ _ _ _ _ _ => rfl, fun _ _ _ _ _ => rfl, ?_⟩
  intro o h
  obtain ⟨tr, th⟩ := o
  cases th with
  | none => simp_all [commandWrapper, hasExit_append]
  | some msg => simp_all [commandWrapper, hasExit_append, hasExit]

/-- C8 witness: concrete unauthenticated `deploy start` trace is the single
warning print, and the wrapper exits for a thrown error. -/
theorem precondition_exit_amended_witness :
    deployStartTrace false none ⟨none, "staging", none⟩ none ⟨"web"⟩ ""
        ⟨"d1", "staging", "web", "queued", none⟩ = [Effect.print loginWarning] ∧
    hasExit (commandWrapper ⟨[Effect.print "x"], some "boom"⟩) = true :=
  ⟨precondition_exit_amended.1 none ⟨none, "staging", none⟩ none ⟨"web"⟩ ""
      ⟨"d1", "staging", "web", "queued", none⟩,
   (precondition_exit_amended.2.2 ⟨[Effect.print "x"], some "boom"⟩ rfl).2 rfl⟩

/-- C8 counterexample: `AuthCommand.login` with an invalid token prints the
failure message and exits the process with code 1 from inside the handler,
without any thrown error reaching the wrapper. -/
theorem precondition_exit_counterexample :
    authLoginTrace (some "tok") none "" false =
      [Effect.print "🔐 GameBuild Authentication",
       Effect.http "GET" "https://api.gamebuild.com/v1/user/me",
       Effect.print "❌ Authentication failed. Please check your token.",
       Effect.exit 1] ∧
    hasExit (authLoginTrace (some "tok") none "" false) = true :=
  ⟨rfl, rfl⟩

/-- C9: the `config set` coercion classifies the empty string and every
whitespace-only string as numeric and stores the number 0 (not the string),
because `Number("")` is 0 and passes the not-NaN test before the JSON and
string fallbacks. -/
theorem empty_string_coercion :
    (∀ jsonParse, coerceValue jsonParse "" = JValue.num (JsNum.fin 0)) ∧
    (∀ jsonParse s, s.data.all isJsWhitespace = true →
        coerceValue jsonParse s = JValue.num (JsNum.fin 0)) ∧
    JValue.num (JsNum.fin 0) ≠ JValue.str "" := by
  refine ⟨fun _ => rfl, ?_, by simp⟩
  intro jp s hws
  have h0 : jsToNumber s = .fin 0 := jsToNumber_ws s hws
  have h1 : jsToLower s ≠ "true" := jsToLower_ws_ne s "true" hws (by decide)
  have h2 : jsToLower s ≠ "false" := jsToLower_ws_ne s "false" hws (by decide)
  simp [coerceValue, h1, h2, h0]

/-- C9 witness: a space-only input and an ideographic-space-only input each
store the number 0. -/
theorem empty_string_coercion_witness :
    coerceValue (fun _ => none) " " = JValue.num (JsNum.fin 0) ∧
    coerceValue (fun _ => none) "\u3000" = JValue.num (JsNum.fin 0) :=
  ⟨empty_string_coercion.2.1 (fun _ => none) " " (by decide),
   empty_string_coercion.2.1 (fun _ => none) "\u3000" (by decide)⟩

/-- C10 (amended): `ConfigService.delete(k)` (config.ts lines 86-99), for a
key whose segments are neither `__proto__` nor own properties of
`Object.prototype`, leaves the prototype untouched and leaves unchanged the
entry at every dotted path diverging from `k` (neither path a prefix of the
other); and whenever the walk meets an intermediate `current[k]` that is
falsy or not an object it returns early with the prototype and the whole
config exactly unchanged.  Without the segment proviso a delete can walk
into the shared prototype and change divergent entries
(`delete_frame_counterexample`); entries below `k` are removed with it. -/
theorem delete_frame_amended (proto cfg : List (String × JValue)) (k k' : String) :
    ((∀ s ∈ jsSplit k '.', ¬ s = "__proto__" ∧ objGet proto s = none) →
      Diverge (jsSplit k '.') (jsSplit k' '.') →
      (csDelete proto cfg k).1 = proto ∧
      csGet (csDelete proto cfg k).1 (csDelete proto cfg k).2 k' =
        csGet proto cfg k') ∧
    (pDelBlocked (jsSplit k '.') proto cfg = true →
      csDelete proto cfg k = (proto, cfg)) := by
  constructor
  · intro hseg hdiv
    have h1 :=
      (pGet_pDel (jsSplit k '.') proto (jsSplit_ne_nil k '.') hseg false cfg).1
    refine ⟨h1, ?_⟩
    show pGetLoop (jsSplit k' '.') (csDelete proto cfg k).1
        (.obj false (csDelete proto cfg k).2) = csGet proto cfg k'
    rw [show (csDelete proto cfg k).1 = proto from h1]
    exact pGetLoop_pDelLoop_frame hdiv proto false cfg
  · exact pDelLoop_blocked _ _ _

/-- C10 witness: deleting `a.b` keeps the sibling entry `a.x` and the
prototype, and deleting through the non-object `q` changes nothing. -/
theorem delete_frame_amended_witness :
    (∀ s ∈ jsSplit "a.b" '.',
        ¬ s = "__proto__" ∧ objGet [("toString", JValue.fn "toString")] s = none) ∧
    Diverge (jsSplit "a.b" '.') (jsSplit "a.x" '.') ∧
    csGet (csDelete [("toString", JValue.fn "toString")]
        [("a", JValue.obj false
          [("b", JValue.num (JsNum.fin 1)), ("x", JValue.num (JsNum.fin 2))])]
        "a.b").1
      (csDelete [("toString", JValue.fn "toString")]
        [("a", JValue.obj false
          [("b", JValue.num (JsNum.fin 1)), ("x", JValue.num (JsNum.fin 2))])]
        "a.b").2 "a.x" =
      csGet [("toString", JValue.fn "toString")]
        [("a", JValue.obj false
          [("b", JValue.num (JsNum.fin 1)), ("x", JValue.num (JsNum.fin 2))])]
        "a.x" ∧
    pDelBlocked (jsSplit "q.r.s" '.') [("toString", JValue.fn "toString")]
        [("q", JValue.num (JsNum.fin 3))] = true ∧
    csDelete [("toString", JValue.fn "toString")]
        [("q", JValue.num (JsNum.fin 3))] "q.r.s" =
      ([("toString", JValue.fn "toString")], [("q", JValue.num (JsNum.fin 3))]) := by
  have hseg : ∀ s ∈ jsSplit "a.b" '.',
      ¬ s = "__proto__" ∧ objGet [("toString", JValue.fn "toString")] s = none := by
    intro s hs
    rw [show jsSplit "a.b" '.' = ["a", "b"] from rfl] at hs
    fin_cases hs <;> exact ⟨by decide, rfl⟩
  have hdiv : Diverge (jsSplit "a.b" '.') (jsSplit "a.x" '.') := by
    rw [show jsSplit "a.b" '.' = ["a", "b"] from rfl,
      show jsSplit "a.x" '.' = ["a", "x"] from rfl]
    exact Diverge.cons "a" ["b"] ["x"] (Diverge.head "b" "x" [] [] (by decide))
  refine ⟨hseg, hdiv,
    ((delete_frame_amended _ _ "a.b" "a.x").1 hseg hdiv).2, rfl,
    (delete_frame_amended [("toString", JValue.fn "toString")]
      [("q", JValue.num (JsNum.fin 3))] "q.r.s" "z").2 rfl⟩

/-- C10 counterexample: deleting `a.b` removes the whole subtree, so the
distinct entry `a.b.c` changes from 5 to `undefined`; and
`delete('__proto__.toString')` walks into the shared `Object.prototype` and
removes its `toString`, so the divergent entry `x.toString` changes from the
inherited function to `undefined`.  Deletion is therefore not confined to
the entry addressed by the key. -/
theorem delete_frame_counterexample :
    (csGet [("toString", JValue.fn "toString")]
        [("a", JValue.obj false
          [("b", JValue.obj false [("c", JValue.num (JsNum.fin 5))])])]
        "a.b.c" = JValue.num (JsNum.fin 5) ∧
      csGet (csDelete [("toString", JValue.fn "toString")]
          [("a", JValue.obj false
            [("b", JValue.obj false [("c", JValue.num (JsNum.fin 5))])])]
          "a.b").1
        (csDelete [("toString", JValue.fn "toString")]
          [("a", JValue.obj false
            [("b", JValue.obj false [("c", JValue.num (JsNum.fin 5))])])]
          "a.b").2 "a.b.c" = JValue.undefined ∧
      ("a.b.c" : String) ≠ "a.b") ∧
    (csGet [("toString", JValue.fn "toString")] [("x", JValue.obj false [])]
        "x.toString" = JValue.fn "toString" ∧
      csDelete [("toString", JValue.fn "toString")] [("x", JValue.obj false [])]
        "__proto__.toString" = ([], [("x", JValue.obj false [])]) ∧
      csGet (csDelete [("toString", JValue.fn "toString")]
          [("x", JValue.obj false [])] "__proto__.toString").1
        (csDelete [("toString", JValue.fn "toString")]
          [("x", JValue.obj false [])] "__proto__.toString").2 "x.toString" =
        JValue.undefined ∧
      ("__proto__.toString" : String) ≠ "x.toString") := by
  exact ⟨⟨rfl, rfl, by decide⟩, rfl, rfl, rfl, by decide⟩
